import Mathlib

/-!
Shallow embedding of the backstage-plugin-aws-backend core, translated from
the TypeScript sources: the cross-account credential broker
(`AwsCredentialsProvider`), the paginated-collection loops, the batched
detail-enrichment listings, and the per-resource mappers that the frozen
claims refer to.  JavaScript numbers used for timestamps are modelled as
`Int` (milliseconds since the epoch), `Date` values as their epoch
milliseconds, `Record<string, string>` as association lists built by
insert-with-overwrite, and thrown errors as `Except` values.  Vendor
(AWS SDK) calls are oracles passed in as function arguments; each operation
additionally reports how many vendor page fetches it performed, which the
source exposes as observable network round trips.
-/

namespace AwsPlugin

/-- An entry of the static account registry (`AwsAccount` in
`AwsCredentialsProvider.ts`). -/
structure AwsAccount where
  name : String
  accountId : String
  region : String
  roleArn : String
  externalId : Option String
deriving DecidableEq, Repr

/-- The `AwsCredentialIdentity` record: the credential material returned to callers of
`getCredentials`.  `expiration` is the optional expiry timestamp (ms). -/
structure Credentials where
  accessKeyId : String
  secretAccessKey : String
  sessionToken : Option String
  expiration : Option Int
deriving DecidableEq, Repr

/-- One entry of `credentialsCache`: the credentials plus the `expiresAt`
timestamp (ms) the broker derived for them. -/
structure CacheEntry where
  credentials : Credentials
  expiresAt : Int
deriving DecidableEq, Repr

/-- The mutable state of `AwsCredentialsProvider`: the account registry, the
per-account credential cache, and (as instrumentation of the observable
network traffic) the number of assume-role exchanges performed so far. -/
structure BrokerState where
  accounts : List AwsAccount
  cache : List (String × CacheEntry)
  exchangeCount : Nat
deriving DecidableEq, Repr

/-- The errors thrown by the embedded operations.  `unknownAccount` and
`assumeRoleFailed` are the two errors raised by the broker itself; `vendor`
is a rethrown vendor-side error, identified by its `name` the way the
source discriminates errors. -/
inductive OpError where
  | unknownAccount (name : String)
  | assumeRoleFailed (name : String)
  | vendor (name : String)
deriving DecidableEq, Repr

/-- A vendor-side error as the source sees it: discriminated by `name`. -/
structure VendorError where
  name : String
deriving DecidableEq, Repr

/-- Parameters of one assume-role exchange (`AssumeRoleCommand`). -/
structure AssumeRoleParams where
  roleArn : String
  roleSessionName : String
  durationSeconds : Nat
  externalId : Option String
deriving DecidableEq, Repr

/-- The credential material of a successful security-token exchange
(`response.Credentials`). -/
structure StsCredentials where
  accessKeyId : String
  secretAccessKey : String
  sessionToken : Option String
  expiration : Option Int
deriving DecidableEq, Repr

/-- Lookup `this.accounts.get(name)` on the registry map. -/
def lookupAccount (accounts : List AwsAccount) (name : String) : Option AwsAccount :=
  accounts.find? (fun a => a.name == name)

/-- Lookup `this.credentialsCache.get(accountName)`. -/
def cacheLookup (cache : List (String × CacheEntry)) (name : String) : Option CacheEntry :=
  (cache.find? (fun e => e.1 == name)).map (fun e => e.2)

/-- Update `this.credentialsCache.set(accountName, entry)`: unconditional
overwrite of any prior entry for the same key. -/
def cacheSet (cache : List (String × CacheEntry)) (name : String) (entry : CacheEntry) :
    List (String × CacheEntry) :=
  (name, entry) :: cache.filter (fun e => !(e.1 == name))

/-- JavaScript truthiness of an optional string: `undefined` and the empty
string are both falsy (`if (account.externalId)`). -/
def presentString : Option String → Option String
  | some s => if s == "" then none else some s
  | none => none

/-- The assume-role renewal path of `getCredentials`: build the
`AssumeRoleCommand` parameters (role ARN, a session name derived from the
current timestamp, a fixed 1-hour duration, the external id when present),
perform the exchange, and on success store the new lease in the cache,
overwriting any prior entry.  `sts` is the security-token service oracle;
`none` models a response without `Credentials`. -/
def assumeRoleRenew (sts : AssumeRoleParams → Option StsCredentials) (now : Int)
    (st : BrokerState) (accountName : String) (account : AwsAccount) :
    Except OpError (Credentials × BrokerState) :=
  let params : AssumeRoleParams :=
    { roleArn := account.roleArn
      roleSessionName := "backstage-aws-plugin-" ++ toString now
      durationSeconds := 3600
      externalId := presentString account.externalId }
  match sts params with
  | none => .error (.assumeRoleFailed accountName)
  | some c =>
    let credentials : Credentials :=
      { accessKeyId := c.accessKeyId
        secretAccessKey := c.secretAccessKey
        sessionToken := c.sessionToken
        expiration := c.expiration }
    let expiresAt : Int := c.expiration.getD (now + 3600000)
    .ok (credentials,
      { st with
        cache := cacheSet st.cache accountName { credentials := credentials, expiresAt := expiresAt }
        exchangeCount := st.exchangeCount + 1 })

/-- Embeds `AwsCredentialsProvider.getCredentials`: fail with the unknown-account
error when the name is not registered; return the cached lease when its
`expiresAt` is strictly more than 60 s (60000 ms) past `now`; otherwise
perform an assume-role renewal. -/
def getCredentials (sts : AssumeRoleParams → Option StsCredentials) (now : Int)
    (st : BrokerState) (accountName : String) :
    Except OpError (Credentials × BrokerState) :=
  match lookupAccount st.accounts accountName with
  | none => .error (.unknownAccount accountName)
  | some account =>
    match cacheLookup st.cache accountName with
    | some cached =>
      if now + 60000 < cached.expiresAt then .ok (cached.credentials, st)
      else assumeRoleRenew sts now st accountName account
    | none => assumeRoleRenew sts now st accountName account

/-- The value built by `fromTemporaryCredentials(params)`: a deferred
credential supplier capturing the role parameters and the client region.
Note it captures no credential material and no reference to the broker's
cache. -/
structure TempCredsProvider where
  roleArn : String
  roleSessionName : String
  durationSeconds : Nat
  externalId : Option String
  clientRegion : String
deriving DecidableEq, Repr

/-- Embeds `AwsCredentialsProvider.getCredentialsProvider`: look up the account and
build the SDK temporary-credentials supplier from the account's role
parameters and region.  It reads only the registry, never the credential
cache. -/
def getCredentialsProvider (now : Int) (st : BrokerState) (accountName : String) :
    Except OpError TempCredsProvider :=
  match lookupAccount st.accounts accountName with
  | none => .error (.unknownAccount accountName)
  | some account =>
    .ok
      { roleArn := account.roleArn
        roleSessionName := "backstage-aws-plugin-" ++ toString now
        durationSeconds := 3600
        externalId := presentString account.externalId
        clientRegion := account.region }

/-- Model of the external SDK collaborator `fromTemporaryCredentials`
(out-of-scope library code, per the spec's external-interfaces section):
each invocation of the supplier performs its own assume-role exchange with
the captured parameters.  It never consults the broker's cache. -/
def invokeTempCredsProvider (sts : AssumeRoleParams → Option StsCredentials)
    (p : TempCredsProvider) : Except OpError Credentials :=
  match sts
      { roleArn := p.roleArn
        roleSessionName := p.roleSessionName
        durationSeconds := p.durationSeconds
        externalId := p.externalId } with
  | none => .error (.assumeRoleFailed p.roleArn)
  | some c =>
    .ok
      { accessKeyId := c.accessKeyId
        secretAccessKey := c.secretAccessKey
        sessionToken := c.sessionToken
        expiration := c.expiration }

/-- A vendor client as every provider's `getClient` builds it: bound to the
account's region and to the broker's credentials supplier. -/
structure ClientConfig where
  region : String
  credentials : TempCredsProvider
deriving DecidableEq, Repr

/-- The `getClient` helper shared verbatim by every provider class: look up
the account (throwing the unknown-account error when absent) and build a
client bound to `account.region` and
`credentialsProvider.getCredentialsProvider(accountName)`. -/
def getClient (now : Int) (st : BrokerState) (accountName : String) :
    Except OpError ClientConfig :=
  match lookupAccount st.accounts accountName with
  | none => .error (.unknownAccount accountName)
  | some account =>
    match getCredentialsProvider now st accountName with
    | .error e => .error e
    | .ok p => .ok { region := account.region, credentials := p }

/-- The do/while pagination loop every provider inlines: call the fetch with
the current cursor (initially absent), append the page's items, continue
with the returned cursor, stop when it is absent.  Returns the accumulated
items and the number of fetch calls.  `fuel` bounds the recursion; all
theorems supply enough fuel for the cursor chain at hand. -/
def paginate (fetch : Option String → List α × Option String) :
    Nat → Option String → List α × Nat
  | 0, _ => ([], 0)
  | fuel + 1, cursor =>
    let r := fetch cursor
    match r.2 with
    | none => (r.1, 1)
    | some c =>
      let rest := paginate fetch fuel (some c)
      (r.1 ++ rest.1, rest.2 + 1)

/-- A finite cursor chain of vendor pages: starting from `cursor`, the fetch
yields the given pages in order, each page handing its successor's cursor to
the next call, the last page returning an absent cursor. -/
inductive FetchChain (fetch : Option String → List α × Option String) :
    Option String → List (List α) → Prop
  | last {cursor : Option String} {items : List α} :
      fetch cursor = (items, none) → FetchChain fetch cursor [items]
  | step {cursor : Option String} {items : List α} {c : String} {ps : List (List α)} :
      fetch cursor = (items, some c) → FetchChain fetch (some c) ps →
      FetchChain fetch cursor (items :: ps)

theorem paginate_chain {fetch : Option String → List α × Option String}
    {cursor : Option String} {pages : List (List α)}
    (h : FetchChain fetch cursor pages) :
    ∀ fuel, pages.length ≤ fuel →
      paginate fetch fuel cursor = (pages.flatten, pages.length) := by
  induction h with
  | last hf =>
    intro fuel hfuel
    match fuel, hfuel with
    | fuel + 1, _ => simp [paginate, hf]
  | @step cursor items c ps hf htail ih =>
    intro fuel hfuel
    match fuel, hfuel with
    | fuel + 1, hfuel =>
      have hle : ps.length ≤ fuel := by
        simpa using Nat.succ_le_succ_iff.mp (by simpa using hfuel)
      simp [paginate, hf, ih fuel hle]

/-- Lifting a per-item mapping over a cursor chain: the loops that push
`map(raw)` per page fetch the same chain with each page mapped. -/
theorem FetchChain.mapItems {fetch : Option String → List α × Option String}
    {cursor : Option String} {pages : List (List α)} (g : α → β)
    (h : FetchChain fetch cursor pages) :
    FetchChain (fun c => ((fetch c).1.map g, (fetch c).2)) cursor (pages.map (List.map g)) := by
  induction h with
  | last hf => exact .last (by simp [hf])
  | step hf _ ih => exact .step (by simp [hf]) ih

/-- A raw vendor tag (`{ Key?, Value? }`). -/
structure AwsTag where
  key : Option String
  value : Option String
deriving DecidableEq, Repr

/-- Insert-with-overwrite on the association-list model of a
`Record<string, string>` (`tags[tag.Key] = tag.Value`). -/
def recordSet (r : List (String × String)) (k v : String) : List (String × String) :=
  if r.any (fun p => p.1 == k) then r.map (fun p => if p.1 == k then (k, v) else p)
  else r ++ [(k, v)]

/-- The tag-collection loop every mapper repeats: for each raw tag, when both
`Key` and `Value` are truthy (present and non-empty), set `tags[Key] = Value`. -/
def collectTags (ts : List AwsTag) : List (String × String) :=
  ts.foldl
    (fun acc t =>
      match t.key, t.value with
      | some k, some v => if k == "" || v == "" then acc else recordSet acc k v
      | _, _ => acc)
    []

/-- The batch slicing of the detail-enrichment loops
(`for (let i = 0; i < names.length; i += batchSize)` with
`batchSize = 5`): consecutive groups of five in original order. -/
def chunked5Aux : Nat → List α → List (List α)
  | 0, _ => []
  | _ + 1, [] => []
  | fuel + 1, x :: xs => ((x :: xs).take 5) :: chunked5Aux fuel ((x :: xs).drop 5)

def chunked5 (l : List α) : List (List α) := chunked5Aux l.length l

/-- One batch of `Promise.all(batch.map(f))`: runs `f` on every element; a
rejection anywhere rejects the whole batch. -/
def mapBatch (f : α → Except OpError (Option β)) : List α → Except OpError (List (Option β))
  | [] => .ok []
  | x :: xs =>
    match f x with
    | .error e => .error e
    | .ok r =>
      match mapBatch f xs with
      | .error e => .error e
      | .ok rs => .ok (r :: rs)

/-- The batched detail loop shared by `listTablesWithDetails` and
`listBucketsWithDetails`: await each batch in full, keep the defined
results in order, then move to the next batch. -/
def processBatches (f : α → Except OpError (Option β)) :
    List (List α) → Except OpError (List β)
  | [] => .ok []
  | b :: bs =>
    match mapBatch f b with
    | .error e => .error e
    | .ok rs =>
      match processBatches f bs with
      | .error e => .error e
      | .ok rest => .ok (rs.reduceOption ++ rest)

theorem chunked5Aux_facts :
    ∀ (fuel : Nat) (l : List α), l.length ≤ fuel →
      (chunked5Aux fuel l).flatten = l ∧
      (chunked5Aux fuel l).length = (l.length + 4) / 5 ∧
      ∀ b ∈ chunked5Aux fuel l, b.length ≤ 5 := by
  intro fuel
  induction fuel with
  | zero =>
    intro l hl
    have : l = [] := List.length_eq_zero.mp (Nat.le_zero.mp hl)
    subst this
    simp [chunked5Aux]
  | succ n ih =>
    intro l hl
    match l with
    | [] => simp [chunked5Aux]
    | x :: xs =>
      have hdrop : ((x :: xs).drop 5).length ≤ n := by
        simp only [List.length_drop, List.length_cons]
        simp only [List.length_cons] at hl
        omega
      obtain ⟨ihj, ihl, ihb⟩ := ih ((x :: xs).drop 5) hdrop
      refine ⟨?_, ?_, ?_⟩
      · simp only [chunked5Aux, List.flatten_cons, ihj, List.take_append_drop]
      · simp only [chunked5Aux, List.length_cons, ihl, List.length_drop]
        omega
      · intro b hb
        simp only [chunked5Aux] at hb
        rcases List.mem_cons.mp hb with hb | hb
        · subst hb; simp [List.length_take_le]
        · exact ihb b hb

theorem chunked5_facts (l : List α) :
    (chunked5 l).flatten = l ∧
    (chunked5 l).length = (l.length + 4) / 5 ∧
    ∀ b ∈ chunked5 l, b.length ≤ 5 :=
  chunked5Aux_facts l.length l (Nat.le_refl _)

theorem reduceOption_map_eq (g : α → Option β) (l : List α) :
    (l.map g).reduceOption = l.filterMap g := by
  induction l with
  | nil => rfl
  | cons x xs ih =>
    cases hx : g x <;> simp [List.reduceOption, List.filterMap_cons, hx]

theorem mapBatch_ok (g : α → Option β) (f : α → Except OpError (Option β))
    (hf : ∀ x, f x = .ok (g x)) :
    ∀ b : List α, mapBatch f b = .ok (b.map g) := by
  intro b
  induction b with
  | nil => rfl
  | cons x xs ih => simp [mapBatch, hf x, ih]

theorem processBatches_ok (g : α → Option β) (f : α → Except OpError (Option β))
    (hf : ∀ x, f x = .ok (g x)) :
    ∀ bs : List (List α), processBatches f bs = .ok ((bs.flatten).filterMap g) := by
  intro bs
  induction bs with
  | nil => rfl
  | cons b bs ih =>
    simp [processBatches, mapBatch_ok g f hf, ih, reduceOption_map_eq,
      List.filterMap_append]

/- DynamoDbProvider -/

/-- A key-schema element of a table or index (`{ AttributeName?, KeyType? }`). -/
structure KeySchemaElement where
  attributeName : Option String
  keyType : Option String
deriving DecidableEq, Repr

/-- An attribute definition (`{ AttributeName?, AttributeType? }`). -/
structure AttributeDefinition where
  attributeName : Option String
  attributeType : Option String
deriving DecidableEq, Repr

/-- Raw provisioned throughput (`{ ReadCapacityUnits?, WriteCapacityUnits? }`). -/
structure RawProvisionedThroughput where
  readCapacityUnits : Option Int
  writeCapacityUnits : Option Int
deriving DecidableEq, Repr

/-- Raw index projection (`{ ProjectionType?, NonKeyAttributes? }`). -/
structure RawProjection where
  projectionType : Option String
  nonKeyAttributes : Option (List String)
deriving DecidableEq, Repr

/-- Raw global secondary index description. -/
structure GlobalSecondaryIndexDescription where
  indexName : Option String
  indexArn : Option String
  indexStatus : Option String
  keySchema : Option (List KeySchemaElement)
  projection : Option RawProjection
  itemCount : Option Int
  indexSizeBytes : Option Int
  provisionedThroughput : Option RawProvisionedThroughput
deriving DecidableEq, Repr

/-- Raw local secondary index description. -/
structure LocalSecondaryIndexDescription where
  indexName : Option String
  indexArn : Option String
  keySchema : Option (List KeySchemaElement)
  projection : Option RawProjection
  itemCount : Option Int
  indexSizeBytes : Option Int
deriving DecidableEq, Repr

/-- Raw stream specification (`{ StreamEnabled?, StreamViewType? }`). -/
structure RawStreamSpecification where
  streamEnabled : Option Bool
  streamViewType : Option String
deriving DecidableEq, Repr

/-- Raw `TableDescription` as `DescribeTableCommand` returns it, restricted to
the fields the provider reads. -/
structure TableDescription where
  tableName : Option String
  tableArn : Option String
  tableStatus : Option String
  creationDateTime : Option Int
  itemCount : Option Int
  tableSizeBytes : Option Int
  billingMode : Option String
  provisionedThroughput : Option RawProvisionedThroughput
  keySchema : Option (List KeySchemaElement)
  attributeDefinitions : Option (List AttributeDefinition)
  globalSecondaryIndexes : Option (List GlobalSecondaryIndexDescription)
  localSecondaryIndexes : Option (List LocalSecondaryIndexDescription)
  streamSpecification : Option RawStreamSpecification
  deletionProtectionEnabled : Option Bool
  tableClass : Option String
deriving DecidableEq, Repr

/-- Normalized GSI (`DynamoDbGsi`). -/
structure DynamoDbGsi where
  indexName : String
  indexArn : Option String
  indexStatus : Option String
  keySchema : List (String × String)
  projectionType : String
  nonKeyAttributes : Option (List String)
  itemCount : Int
  indexSizeBytes : Int
  provisionedThroughput : Option (Int × Int)
deriving DecidableEq, Repr

/-- Normalized LSI (`DynamoDbLsi`). -/
structure DynamoDbLsi where
  indexName : String
  indexArn : Option String
  keySchema : List (String × String)
  projectionType : String
  nonKeyAttributes : Option (List String)
  itemCount : Int
  indexSizeBytes : Int
deriving DecidableEq, Repr

/-- Normalized table entity (`DynamoDbTable`). -/
structure DynamoDbTable where
  tableName : String
  tableArn : String
  tableStatus : String
  creationDateTime : Option Int
  itemCount : Int
  tableSizeBytes : Int
  billingMode : String
  provisionedThroughput : Option (Int × Int)
  keySchema : List (String × String)
  attributeDefinitions : List (String × String)
  globalSecondaryIndexes : List DynamoDbGsi
  localSecondaryIndexes : List DynamoDbLsi
  streamEnabled : Bool
  streamViewType : Option String
  ttlEnabled : Bool
  ttlAttributeName : Option String
  pitrEnabled : Bool
  latestRestorableDateTime : Option Int
  deletionProtectionEnabled : Bool
  tableClass : Option String
  tags : Option (List (String × String))
deriving DecidableEq, Repr

/-- Embeds `DynamoDbProvider.mapGsi`. -/
def mapGsi (gsi : GlobalSecondaryIndexDescription) : DynamoDbGsi :=
  { indexName := gsi.indexName.getD ""
    indexArn := gsi.indexArn
    indexStatus := gsi.indexStatus
    keySchema := (gsi.keySchema.getD []).map
      (fun ks => (ks.attributeName.getD "", ks.keyType.getD ""))
    projectionType := (gsi.projection.bind (fun p => p.projectionType)).getD "ALL"
    nonKeyAttributes := gsi.projection.bind (fun p => p.nonKeyAttributes)
    itemCount := gsi.itemCount.getD 0
    indexSizeBytes := gsi.indexSizeBytes.getD 0
    provisionedThroughput := gsi.provisionedThroughput.map
      (fun pt => (pt.readCapacityUnits.getD 0, pt.writeCapacityUnits.getD 0)) }

/-- Embeds `DynamoDbProvider.mapLsi`. -/
def mapLsi (lsi : LocalSecondaryIndexDescription) : DynamoDbLsi :=
  { indexName := lsi.indexName.getD ""
    indexArn := lsi.indexArn
    keySchema := (lsi.keySchema.getD []).map
      (fun ks => (ks.attributeName.getD "", ks.keyType.getD ""))
    projectionType := (lsi.projection.bind (fun p => p.projectionType)).getD "ALL"
    nonKeyAttributes := lsi.projection.bind (fun p => p.nonKeyAttributes)
    itemCount := lsi.itemCount.getD 0
    indexSizeBytes := lsi.indexSizeBytes.getD 0 }

/-- Embeds `DynamoDbProvider.mapTable`: shape a raw table description plus the
enrichment results (TTL, PITR, tags) into the normalized entity. -/
def mapTable (table : TableDescription) (ttlEnabled : Bool)
    (ttlAttributeName : Option String) (pitrEnabled : Bool)
    (latestRestorableDateTime : Option Int)
    (tags : Option (List (String × String))) : DynamoDbTable :=
  { tableName := table.tableName.getD ""
    tableArn := table.tableArn.getD ""
    tableStatus := table.tableStatus.getD ""
    creationDateTime := table.creationDateTime
    itemCount := table.itemCount.getD 0
    tableSizeBytes := table.tableSizeBytes.getD 0
    billingMode := table.billingMode.getD "PROVISIONED"
    provisionedThroughput := table.provisionedThroughput.map
      (fun pt => (pt.readCapacityUnits.getD 0, pt.writeCapacityUnits.getD 0))
    keySchema := (table.keySchema.getD []).map
      (fun ks => (ks.attributeName.getD "", ks.keyType.getD ""))
    attributeDefinitions := (table.attributeDefinitions.getD []).map
      (fun ad => (ad.attributeName.getD "", ad.attributeType.getD ""))
    globalSecondaryIndexes := (table.globalSecondaryIndexes.getD []).map mapGsi
    localSecondaryIndexes := (table.localSecondaryIndexes.getD []).map mapLsi
    streamEnabled := ((table.streamSpecification.bind
      (fun s => s.streamEnabled)).getD false)
    streamViewType := table.streamSpecification.bind (fun s => s.streamViewType)
    ttlEnabled := ttlEnabled
    ttlAttributeName := ttlAttributeName
    pitrEnabled := pitrEnabled
    latestRestorableDateTime := latestRestorableDateTime
    deletionProtectionEnabled := table.deletionProtectionEnabled.getD false
    tableClass := table.tableClass
    tags := tags }

/-- Response of `DescribeTimeToLiveCommand`
(`TimeToLiveDescription?.{TimeToLiveStatus, AttributeName}`). -/
structure DescribeTimeToLiveResponse where
  timeToLiveStatus : Option String
  attributeName : Option String
deriving DecidableEq, Repr

/-- Response of `DescribeContinuousBackupsCommand`
(`ContinuousBackupsDescription?.PointInTimeRecoveryDescription?.…`). -/
structure DescribeContinuousBackupsResponse where
  pointInTimeRecoveryStatus : Option String
  latestRestorableDateTime : Option Int
deriving DecidableEq, Repr

/-- Response of `ListTablesCommand`. -/
structure ListTablesResponse where
  tableNames : List String
  lastEvaluatedTableName : Option String

/-- The DynamoDB vendor client: one oracle per SDK command the provider
sends. -/
structure DdbVendor where
  listTablesPage : Option String → ListTablesResponse
  describeTable : String → Except VendorError (Option TableDescription)
  describeTimeToLive : String → Except VendorError DescribeTimeToLiveResponse
  describeContinuousBackups : String → Except VendorError DescribeContinuousBackupsResponse
  listTagsOfResource : Option String → Except VendorError (List AwsTag)

/-- Embeds `DynamoDbProvider.listTables`: drain `ListTablesCommand` pages via the
cursor (`ExclusiveStartTableName` / `LastEvaluatedTableName`), accumulating
the table names in vendor order.  Returns the names and the fetch count. -/
def listTables (vendor : DdbVendor) (now : Int) (st : BrokerState)
    (accountName : String) (fuel : Nat) : Except OpError (List String × Nat) :=
  match getClient now st accountName with
  | .error e => .error e
  | .ok _ =>
    .ok (paginate
      (fun c =>
        let r := vendor.listTablesPage c
        (r.tableNames, r.lastEvaluatedTableName))
      fuel none)

/-- Embeds `DynamoDbProvider.getTable`: describe the table, then enrich with TTL,
PITR and tags.  Each of the three enrichment sub-fetches sits in a bare
`try { … } catch { /* not available */ }`, so in the source every error it
raises — classified or not — is swallowed and the corresponding fields stay
at their defaults.  Only the primary `DescribeTableCommand` error is
classified (`ResourceNotFoundException` → `undefined`, anything else
rethrown). -/
def getTable (vendor : DdbVendor) (now : Int) (st : BrokerState)
    (accountName tableName : String) : Except OpError (Option DynamoDbTable) :=
  match getClient now st accountName with
  | .error e => .error e
  | .ok _ =>
    match vendor.describeTable tableName with
    | .error e =>
      if e.name == "ResourceNotFoundException" then .ok none
      else .error (.vendor e.name)
    | .ok none => .ok none
    | .ok (some table) =>
      let ttl : Bool × Option String :=
        match vendor.describeTimeToLive tableName with
        | .ok r => (r.timeToLiveStatus == some "ENABLED", r.attributeName)
        | .error _ => (false, none)
      let pitr : Bool × Option Int :=
        match vendor.describeContinuousBackups tableName with
        | .ok r => (r.pointInTimeRecoveryStatus == some "ENABLED", r.latestRestorableDateTime)
        | .error _ => (false, none)
      let tags : Option (List (String × String)) :=
        match vendor.listTagsOfResource table.tableArn with
        | .ok ts => if ts.length > 0 then some (collectTags ts) else none
        | .error _ => none
      .ok (some (mapTable table ttl.1 ttl.2 pitr.1 pitr.2 tags))

/-- Embeds `DynamoDbProvider.listTablesWithDetails`: list the table names, then
fetch each table's details in consecutive batches of five
(`Promise.all` per batch), keeping the defined results in original order. -/
def listTablesWithDetails (vendor : DdbVendor) (now : Int) (st : BrokerState)
    (accountName : String) (fuel : Nat) : Except OpError (List DynamoDbTable) :=
  match listTables vendor now st accountName fuel with
  | .error e => .error e
  | .ok (tableNames, _) =>
    processBatches (fun n => getTable vendor now st accountName n) (chunked5 tableNames)

/- LambdaProvider -/

/-- Raw `FunctionConfiguration` restricted to the fields `mapFunction`
reads.  `environment` stands for `Environment?.Variables`. -/
structure FunctionConfiguration where
  functionName : Option String
  functionArn : Option String
  runtime : Option String
  handler : Option String
  codeSize : Option Int
  description : Option String
  timeout : Option Int
  memorySize : Option Int
  lastModified : Option String
  version : Option String
  environment : Option (List (String × String))
deriving DecidableEq, Repr

/-- Normalized function entity (`LambdaFunction`). -/
structure LambdaFunction where
  functionName : String
  functionArn : String
  runtime : Option String
  handler : Option String
  codeSize : Int
  description : Option String
  timeout : Option Int
  memorySize : Option Int
  lastModified : Option String
  version : String
  environment : Option (List (String × String))
  tags : Option (List (String × String))
deriving DecidableEq, Repr

/-- Embeds `LambdaProvider.mapFunction`: the listing mapper, which never sets
`tags`. -/
def mapFunction (fn : FunctionConfiguration) : LambdaFunction :=
  { functionName := fn.functionName.getD ""
    functionArn := fn.functionArn.getD ""
    runtime := fn.runtime
    handler := fn.handler
    codeSize := fn.codeSize.getD 0
    description := fn.description
    timeout := fn.timeout
    memorySize := fn.memorySize
    lastModified := fn.lastModified
    version := fn.version.getD "$LATEST"
    environment := fn.environment
    tags := none }

/-- Response of `ListFunctionsCommand`. -/
structure ListFunctionsResponse where
  functions : List FunctionConfiguration
  nextMarker : Option String

/-- Response of `GetFunctionCommand` (`{ Configuration?, Tags? }`). -/
structure GetFunctionResponse where
  configuration : Option FunctionConfiguration
  tags : Option (List (String × String))
deriving DecidableEq, Repr

/-- Embeds `LambdaProvider.listFunctions`: drain `ListFunctionsCommand` pages via
`Marker` / `NextMarker`, pushing `mapFunction(fn)` per raw function in
vendor order.  Returns the mapped functions and the fetch count. -/
def listFunctions (fetch : Option String → ListFunctionsResponse) (now : Int)
    (st : BrokerState) (accountName : String) (fuel : Nat) :
    Except OpError (List LambdaFunction × Nat) :=
  match getClient now st accountName with
  | .error e => .error e
  | .ok _ =>
    .ok (paginate
      (fun c =>
        let r := fetch c
        (r.functions.map mapFunction, r.nextMarker))
      fuel none)

/-- Embeds `LambdaProvider.getFunction`: fetch the function, map its configuration,
and attach `response.Tags` verbatim as the entity's `tags` field.
`ResourceNotFoundException` yields `undefined`; other vendor errors
rethrow. -/
def getFunction (vendor : String → Except VendorError GetFunctionResponse)
    (now : Int) (st : BrokerState) (accountName functionName : String) :
    Except OpError (Option LambdaFunction) :=
  match getClient now st accountName with
  | .error e => .error e
  | .ok _ =>
    match vendor functionName with
    | .error e =>
      if e.name == "ResourceNotFoundException" then .ok none
      else .error (.vendor e.name)
    | .ok r =>
      match r.configuration with
      | none => .ok none
      | some cfg => .ok (some { mapFunction cfg with tags := r.tags })

/- S3Provider -/

/-- A transition of a raw lifecycle rule. -/
structure RawTransition where
  days : Option Int
  date : Option Int
  storageClass : Option String
deriving DecidableEq, Repr

/-- A noncurrent-version transition of a raw lifecycle rule. -/
structure RawNcvTransition where
  noncurrentDays : Option Int
  newerNoncurrentVersions : Option Int
  storageClass : Option String
deriving DecidableEq, Repr

/-- Raw `Expiration` of a lifecycle rule. -/
structure RawExpiration where
  days : Option Int
  date : Option Int
  expiredObjectDeleteMarker : Option Bool
deriving DecidableEq, Repr

/-- Raw `NoncurrentVersionExpiration` of a lifecycle rule. -/
structure RawNcvExpiration where
  noncurrentDays : Option Int
  newerNoncurrentVersions : Option Int
deriving DecidableEq, Repr

/-- Raw `Filter.Tag` of a lifecycle rule. -/
structure RawFilterTag where
  key : Option String
  value : Option String
deriving DecidableEq, Repr

/-- Raw `Filter` of a lifecycle rule; `pfx` stands for the `Prefix` field. -/
structure RawLifecycleFilter where
  pfx : Option String
  tag : Option RawFilterTag
deriving DecidableEq, Repr

/-- Raw `AbortIncompleteMultipartUpload`. -/
structure RawAbortIncomplete where
  daysAfterInitiation : Option Int
deriving DecidableEq, Repr

/-- Raw `LifecycleRule`; `pfx` stands for the top-level `Prefix` field. -/
structure LifecycleRule where
  id : Option String
  status : Option String
  pfx : Option String
  filter : Option RawLifecycleFilter
  transitions : Option (List RawTransition)
  expiration : Option RawExpiration
  noncurrentVersionTransitions : Option (List RawNcvTransition)
  noncurrentVersionExpiration : Option RawNcvExpiration
  abortIncompleteMultipartUpload : Option RawAbortIncomplete
deriving DecidableEq, Repr

/-- Normalized filter of `S3LifecycleRule`; `pfx` stands for `prefix`. -/
structure S3RuleFilter where
  pfx : Option String
  tags : Option (List (String × String))
deriving DecidableEq, Repr

/-- Normalized `S3LifecycleRule`; `pfx` stands for `prefix`. -/
structure S3LifecycleRule where
  id : String
  status : String
  pfx : Option String
  filter : Option S3RuleFilter
  transitions : List (Option Int × Option Int × String)
  expiration : Option RawExpiration
  noncurrentVersionTransitions : List (Option Int × Option Int × String)
  noncurrentVersionExpiration : Option RawNcvExpiration
  abortIncompleteMultipartUpload : Option Int
deriving DecidableEq, Repr

/-- Normalized bucket entity (`S3Bucket`). -/
structure S3Bucket where
  name : String
  creationDate : Option Int
  region : Option String
  versioningEnabled : Bool
  mfaDeleteEnabled : Bool
  encryptionEnabled : Bool
  encryptionType : Option String
  kmsKeyId : Option String
  lifecycleRules : List S3LifecycleRule
  publicAccessBlocked : Bool
  policyIsPublic : Bool
  tags : Option (List (String × String))
deriving DecidableEq, Repr

/-- Embeds `S3Provider.mapLifecycleRule`. -/
def mapLifecycleRule (rule : LifecycleRule) : S3LifecycleRule :=
  { id := rule.id.getD ""
    status := rule.status.getD "Disabled"
    pfx := rule.pfx
    filter := rule.filter.map
      (fun f =>
        { pfx := f.pfx
          tags := f.tag.map (fun t => [(t.key.getD "", t.value.getD "")]) })
    transitions := (rule.transitions.getD []).map
      (fun t => (t.days, t.date, t.storageClass.getD ""))
    expiration := rule.expiration
    noncurrentVersionTransitions := (rule.noncurrentVersionTransitions.getD []).map
      (fun t => (t.noncurrentDays, t.newerNoncurrentVersions, t.storageClass.getD ""))
    noncurrentVersionExpiration := rule.noncurrentVersionExpiration
    abortIncompleteMultipartUpload := rule.abortIncompleteMultipartUpload.map
      (fun a => a.daysAfterInitiation.getD 0) }

/-- A raw server-side encryption rule,
`ApplyServerSideEncryptionByDefault?.{SSEAlgorithm, KMSMasterKeyID}`. -/
structure ServerSideEncryptionRule where
  sseAlgorithm : Option String
  kmsMasterKeyId : Option String
deriving DecidableEq, Repr

/-- Embeds `S3Provider.mapEncryptionRule`. -/
def mapEncryptionRule (rule : ServerSideEncryptionRule) : String × Option String :=
  (rule.sseAlgorithm.getD "AES256", rule.kmsMasterKeyId)

/-- Response of `GetBucketVersioningCommand`. -/
structure VersioningResponse where
  status : Option String
  mfaDelete : Option String
deriving DecidableEq, Repr

/-- Response of `GetPublicAccessBlockCommand`
(`PublicAccessBlockConfiguration?`). -/
structure PublicAccessBlockConfiguration where
  blockPublicAcls : Option Bool
  blockPublicPolicy : Option Bool
  ignorePublicAcls : Option Bool
  restrictPublicBuckets : Option Bool
deriving DecidableEq, Repr

/-- A raw bucket of `ListBucketsCommand` (`{ Name?, CreationDate? }`). -/
structure BucketEntry where
  name : Option String
  creationDate : Option Int
deriving DecidableEq, Repr

/-- The S3 vendor client: one oracle per SDK command `getBucket` and the
listings send. -/
structure S3Vendor where
  listBuckets : Except VendorError (List BucketEntry)
  getBucketLocation : String → Except VendorError (Option String)
  getBucketVersioning : String → Except VendorError VersioningResponse
  getBucketEncryption : String → Except VendorError (List ServerSideEncryptionRule)
  getBucketLifecycle : String → Except VendorError (List LifecycleRule)
  getPublicAccessBlock : String → Except VendorError (Option PublicAccessBlockConfiguration)
  getBucketPolicyStatus : String → Except VendorError (Option Bool)
  getBucketTagging : String → Except VendorError (List AwsTag)

/-- Embeds `S3Provider.getBucket`: start from a default-valued bucket record and run
the seven enrichment sub-fetches in order (region, versioning, encryption,
lifecycle, public-access block, policy status, tags).  In the source every
sub-fetch is wrapped in a `try`/`catch` whose catch body does nothing — the
catches that do inspect `error.name` (encryption, lifecycle, public access,
policy status, tags) have an empty `if` body — so every error from a
sub-fetch, classified or not, is swallowed and the fields keep their
defaults.  Consequently the body of the outer `try` never throws and the
operation always returns a bucket. -/
def getBucket (vendor : S3Vendor) (now : Int) (st : BrokerState)
    (accountName bucketName : String) : Except OpError (Option S3Bucket) :=
  match getClient now st accountName with
  | .error e => .error e
  | .ok _ =>
    let b0 : S3Bucket :=
      { name := bucketName
        creationDate := none
        region := none
        versioningEnabled := false
        mfaDeleteEnabled := false
        encryptionEnabled := false
        encryptionType := none
        kmsKeyId := none
        lifecycleRules := []
        publicAccessBlocked := false
        policyIsPublic := false
        tags := none }
    let b1 :=
      match vendor.getBucketLocation bucketName with
      | .ok loc =>
        { b0 with region := some ((presentString loc).getD "us-east-1") }
      | .error _ => b0
    let b2 :=
      match vendor.getBucketVersioning bucketName with
      | .ok r =>
        { b1 with
          versioningEnabled := r.status == some "Enabled"
          mfaDeleteEnabled := r.mfaDelete == some "Enabled" }
      | .error _ => b1
    let b3 :=
      match vendor.getBucketEncryption bucketName with
      | .ok rules =>
        match rules with
        | r0 :: _ =>
          let enc := mapEncryptionRule r0
          { b2 with
            encryptionEnabled := true
            encryptionType := some enc.1
            kmsKeyId := enc.2 }
        | [] => b2
      | .error _ => b2
    let b4 :=
      match vendor.getBucketLifecycle bucketName with
      | .ok rules => { b3 with lifecycleRules := rules.map mapLifecycleRule }
      | .error _ => b3
    let b5 :=
      match vendor.getPublicAccessBlock bucketName with
      | .ok config =>
        { b4 with
          publicAccessBlocked :=
            ((config.bind (fun c => c.blockPublicAcls)) == some true &&
             (config.bind (fun c => c.blockPublicPolicy)) == some true &&
             (config.bind (fun c => c.ignorePublicAcls)) == some true &&
             (config.bind (fun c => c.restrictPublicBuckets)) == some true) }
      | .error _ => b4
    let b6 :=
      match vendor.getBucketPolicyStatus bucketName with
      | .ok isPublic => { b5 with policyIsPublic := isPublic.getD false }
      | .error _ => b5
    let b7 :=
      match vendor.getBucketTagging bucketName with
      | .ok tagSet =>
        if tagSet.length > 0 then { b6 with tags := some (collectTags tagSet) } else b6
      | .error _ => b6
    .ok (some b7)

/-- Embeds `S3Provider.listBucketsWithDetails`: list the buckets once, keep the
truthy names, then call `getBucket` per name in consecutive batches of five
(`Promise.all` per batch), keeping the defined results in order. -/
def listBucketsWithDetails (vendor : S3Vendor) (now : Int) (st : BrokerState)
    (accountName : String) : Except OpError (List S3Bucket) :=
  match getClient now st accountName with
  | .error e => .error e
  | .ok _ =>
    match vendor.listBuckets with
    | .error e => .error (.vendor e.name)
    | .ok bucketList =>
      let bucketNames := bucketList.filterMap (fun b => presentString b.name)
      processBatches (fun nm => getBucket vendor now st accountName nm)
        (chunked5 bucketNames)

/- EcrProvider -/

/-- Raw `ImageDetail` restricted to the fields `mapImage` reads. -/
structure ImageDetail where
  imageDigest : Option String
  imageTags : Option (List String)
  imageSizeInBytes : Option Int
  imagePushedAt : Option Int
  imageManifestMediaType : Option String
  lastRecordedPullTime : Option Int
  artifactMediaType : Option String
deriving DecidableEq, Repr

/-- Normalized image entity (`EcrImage`). -/
structure EcrImage where
  repositoryName : String
  imageDigest : String
  imageTags : List String
  imageSizeInBytes : Int
  imagePushedAt : Option Int
  imageManifestMediaType : Option String
  lastRecordedPullTime : Option Int
  artifactMediaType : Option String
deriving DecidableEq, Repr

/-- Embeds `EcrProvider.mapImage`. -/
def mapImage (repositoryName : String) (image : ImageDetail) : EcrImage :=
  { repositoryName := repositoryName
    imageDigest := image.imageDigest.getD ""
    imageTags := image.imageTags.getD []
    imageSizeInBytes := image.imageSizeInBytes.getD 0
    imagePushedAt := image.imagePushedAt
    imageManifestMediaType := image.imageManifestMediaType
    lastRecordedPullTime := image.lastRecordedPullTime
    artifactMediaType := image.artifactMediaType }

/-- Response of `DescribeImagesCommand`. -/
structure DescribeImagesResponse where
  imageDetails : List ImageDetail
  nextToken : Option String

/-- The sort key of `listImages`' comparator:
`imagePushedAt?.getTime() ?? 0`. -/
def pushedKey (i : EcrImage) : Int :=
  i.imagePushedAt.getD 0

/-- Stable insertion for the descending by-push-date sort
(`(a, b) => dateB - dateA`). -/
def insertByPushedDesc (x : EcrImage) : List EcrImage → List EcrImage
  | [] => [x]
  | y :: ys =>
    if pushedKey x < pushedKey y then y :: insertByPushedDesc x ys
    else x :: y :: ys

/-- The `images.sort(…)` step of `listImages`: stable sort by push date,
newest first. -/
def sortImagesByPushedAt : List EcrImage → List EcrImage
  | [] => []
  | x :: xs => insertByPushedDesc x (sortImagesByPushedAt xs)

/-- The page-fetch loop of `EcrProvider.listImages`, with its accumulator and
(as instrumentation) the call counter.  After appending a page the source
first breaks when a truthy `maxResults` is already met, then continues only
on a present `nextToken`. -/
def listImagesLoop (repositoryName : String)
    (fetch : Option String → DescribeImagesResponse) (maxResults : Option Nat) :
    Nat → Option String → List EcrImage → Nat → List EcrImage × Nat
  | 0, _, acc, calls => (acc, calls)
  | fuel + 1, cursor, acc, calls =>
    let r := fetch cursor
    let acc2 := acc ++ r.imageDetails.map (mapImage repositoryName)
    let calls2 := calls + 1
    match maxResults with
    | some m =>
      if m ≠ 0 ∧ m ≤ acc2.length then (acc2, calls2)
      else
        match r.nextToken with
        | none => (acc2, calls2)
        | some c => listImagesLoop repositoryName fetch maxResults fuel (some c) acc2 calls2
    | none =>
      match r.nextToken with
      | none => (acc2, calls2)
      | some c => listImagesLoop repositoryName fetch maxResults fuel (some c) acc2 calls2

/-- Embeds `EcrProvider.listImages`: drain (or short-circuit) the image pages, then
sort the accumulated images by push date (newest first), and when a truthy
`maxResults` was supplied return only the first `maxResults` of the sorted
list.  Returns the images and the fetch count.  (A `maxResults` of `0` is
falsy in the source, so it neither breaks the loop nor truncates.) -/
def listImages (fetch : Option String → DescribeImagesResponse) (now : Int)
    (st : BrokerState) (accountName repositoryName : String)
    (maxResults : Option Nat) (fuel : Nat) : Except OpError (List EcrImage × Nat) :=
  match getClient now st accountName with
  | .error e => .error e
  | .ok _ =>
    let r := listImagesLoop repositoryName fetch maxResults fuel none [] 0
    let sorted := sortImagesByPushedAt r.1
    .ok
      (match maxResults with
       | some m => if m == 0 then sorted else sorted.take m
       | none => sorted, r.2)

/- SsmProvider -/

/-- Raw `Parameter` of the SSM responses. -/
structure SsmRawParameter where
  name : Option String
  type : Option String
  value : Option String
  version : Option Int
  lastModifiedDate : Option Int
  arn : Option String
  dataType : Option String
deriving DecidableEq, Repr

/-- Normalized parameter entity (`SsmParameter`). -/
structure SsmParameter where
  name : String
  type : String
  value : String
  version : Int
  lastModifiedDate : Option Int
  arn : Option String
  dataType : Option String
deriving DecidableEq, Repr

/-- Embeds `SsmProvider.mapParameter`: when the parameter is a `SecureString` and
decryption was not requested, replace the value with the fixed mask
`"********"`. -/
def mapParameter (param : SsmRawParameter) (withDecryption : Bool) : SsmParameter :=
  let isSecureString := param.type == some "SecureString"
  let value := if isSecureString && !withDecryption then "********" else param.value.getD ""
  { name := param.name.getD ""
    type := param.type.getD "String"
    value := value
    version := param.version.getD 0
    lastModifiedDate := param.lastModifiedDate
    arn := param.arn
    dataType := param.dataType }

/-- Response of `GetParametersByPathCommand`. -/
structure GetParametersByPathResponse where
  parameters : List SsmRawParameter
  nextToken : Option String

/-- Embeds `SsmProvider.getParameter`: fetch one parameter (passing
`WithDecryption` through to the vendor) and map it.  `ParameterNotFound`
yields `undefined`; other vendor errors rethrow. -/
def getParameter (vendor : String → Bool → Except VendorError (Option SsmRawParameter))
    (now : Int) (st : BrokerState) (accountName name : String)
    (withDecryption : Bool) : Except OpError (Option SsmParameter) :=
  match getClient now st accountName with
  | .error e => .error e
  | .ok _ =>
    match vendor name withDecryption with
    | .error e =>
      if e.name == "ParameterNotFound" then .ok none
      else .error (.vendor e.name)
    | .ok none => .ok none
    | .ok (some p) => .ok (some (mapParameter p withDecryption))

/-- Embeds `SsmProvider.getParametersByPath`: drain the pages via
`NextToken`, pushing `mapParameter(param, withDecryption)` per raw
parameter in vendor order.  Returns the parameters and the fetch count. -/
def getParametersByPath (fetch : Option String → GetParametersByPathResponse)
    (now : Int) (st : BrokerState) (accountName : String)
    (withDecryption : Bool) (fuel : Nat) :
    Except OpError (List SsmParameter × Nat) :=
  match getClient now st accountName with
  | .error e => .error e
  | .ok _ =>
    .ok (paginate
      (fun c =>
        let r := fetch c
        (r.parameters.map (fun p => mapParameter p withDecryption), r.nextToken))
      fuel none)

/- SecretsManagerProvider -/

/-- Raw `SecretListEntry` restricted to the fields `mapSecret` reads. -/
structure SecretListEntry where
  name : Option String
  arn : Option String
  description : Option String
  kmsKeyId : Option String
  rotationEnabled : Option Bool
  lastChangedDate : Option Int
  lastAccessedDate : Option Int
  tags : Option (List AwsTag)
deriving DecidableEq, Repr

/-- Normalized secret entity (`SecretMetadata`). -/
structure SecretMetadata where
  name : String
  arn : String
  description : Option String
  kmsKeyId : Option String
  rotationEnabled : Bool
  lastChangedDate : Option Int
  lastAccessedDate : Option Int
  tags : Option (List (String × String))
deriving DecidableEq, Repr

/-- Embeds `SecretsManagerProvider.mapSecret`: collect the truthy tag pairs and set
`tags` only when the collected record is non-empty. -/
def mapSecret (secret : SecretListEntry) : SecretMetadata :=
  let tags := collectTags (secret.tags.getD [])
  { name := secret.name.getD ""
    arn := secret.arn.getD ""
    description := secret.description
    kmsKeyId := secret.kmsKeyId
    rotationEnabled := secret.rotationEnabled.getD false
    lastChangedDate := secret.lastChangedDate
    lastAccessedDate := secret.lastAccessedDate
    tags := if tags.length > 0 then some tags else none }

/- EfsProvider -/

/-- Raw `FileSystemDescription` restricted to the fields `mapFileSystem`
reads.  `sizeInBytes` stands for `SizeInBytes?.Value`. -/
structure FileSystemDescription where
  fileSystemId : Option String
  fileSystemArn : Option String
  name : Option String
  creationTime : Option Int
  lifeCycleState : Option String
  numberOfMountTargets : Option Int
  sizeInBytes : Option Int
  performanceMode : Option String
  throughputMode : Option String
  provisionedThroughputInMibps : Option Int
  encrypted : Option Bool
  kmsKeyId : Option String
  tags : Option (List AwsTag)
deriving DecidableEq, Repr

/-- Normalized file-system entity (`EfsFileSystem`). -/
structure EfsFileSystem where
  fileSystemId : String
  fileSystemArn : String
  name : Option String
  creationTime : Int
  lifeCycleState : String
  numberOfMountTargets : Int
  sizeInBytes : Int
  performanceMode : String
  throughputMode : String
  provisionedThroughputInMibps : Option Int
  encrypted : Bool
  kmsKeyId : Option String
  tags : Option (List (String × String))
deriving DecidableEq, Repr

/-- Embeds `EfsProvider.mapFileSystem`: collect the truthy tag pairs and set `tags`
only when the collected record is non-empty.  `now` stands for the
`new Date()` the source defaults a missing `CreationTime` to. -/
def mapFileSystem (now : Int) (fs : FileSystemDescription) : EfsFileSystem :=
  let tags := collectTags (fs.tags.getD [])
  { fileSystemId := fs.fileSystemId.getD ""
    fileSystemArn := fs.fileSystemArn.getD ""
    name := fs.name
    creationTime := fs.creationTime.getD now
    lifeCycleState := fs.lifeCycleState.getD "unknown"
    numberOfMountTargets := fs.numberOfMountTargets.getD 0
    sizeInBytes := fs.sizeInBytes.getD 0
    performanceMode := fs.performanceMode.getD "generalPurpose"
    throughputMode := fs.throughputMode.getD "bursting"
    provisionedThroughputInMibps := fs.provisionedThroughputInMibps
    encrypted := fs.encrypted.getD false
    kmsKeyId := fs.kmsKeyId
    tags := if tags.length > 0 then some tags else none }

/- Theorems -/

theorem cacheLookup_cacheSet (cache : List (String × CacheEntry))
    (name : String) (entry : CacheEntry) :
    cacheLookup (cacheSet cache name entry) name = some entry := by
  simp [cacheLookup, cacheSet]

theorem assumeRoleRenew_fresh
    (sts : AssumeRoleParams → Option StsCredentials) (now : Int)
    (st : BrokerState) (accountName : String) (account : AwsAccount)
    (hsts : ∀ p r e, sts p = some r → r.expiration = some e → now + 60000 < e) :
    ∀ creds st', assumeRoleRenew sts now st accountName account = .ok (creds, st') →
      ∃ entry, cacheLookup st'.cache accountName = some entry ∧
        entry.credentials = creds ∧ now + 60000 < entry.expiresAt := by
  intro creds st' h
  unfold assumeRoleRenew at h
  cases hc : sts
      { roleArn := account.roleArn
        roleSessionName := "backstage-aws-plugin-" ++ toString now
        durationSeconds := 3600
        externalId := presentString account.externalId } with
  | none => simp [hc] at h
  | some c =>
    simp only [hc] at h
    rw [Except.ok.injEq, Prod.mk.injEq] at h
    obtain ⟨hcreds, hst⟩ := h
    subst hcreds
    subst hst
    refine ⟨_, cacheLookup_cacheSet st.cache accountName _, rfl, ?_⟩
    cases he : c.expiration with
    | none => simp [he]
    | some e => simpa [he] using hsts _ _ e hc he

/-- C1: for a registered account, `getCredentials` yields a lease whose
`expiresAt` lies strictly more than 60 s past the current time (given that
the security-token exchange, run with its fixed 1-hour session duration,
returns an expiry more than 60 s away), and while the cached lease still
satisfies `expiresAt > now + 60s` a repeated call returns that identical
cached lease with the broker state unchanged — in particular without a
second role-assumption exchange. -/
theorem getCredentials_fresh_and_cached
    (sts : AssumeRoleParams → Option StsCredentials) (now : Int)
    (st : BrokerState) (accountName : String)
    (hsts : ∀ p r e, sts p = some r → r.expiration = some e → now + 60000 < e) :
    (∀ creds st', getCredentials sts now st accountName = .ok (creds, st') →
      ∃ entry, cacheLookup st'.cache accountName = some entry ∧
        entry.credentials = creds ∧ now + 60000 < entry.expiresAt) ∧
    (∀ cached, cacheLookup st.cache accountName = some cached →
      now + 60000 < cached.expiresAt →
      (lookupAccount st.accounts accountName).isSome →
      getCredentials sts now st accountName = .ok (cached.credentials, st)) := by
  constructor
  · intro creds st' h
    unfold getCredentials at h
    cases hacct : lookupAccount st.accounts accountName with
    | none => simp [hacct] at h
    | some account =>
      simp only [hacct] at h
      cases hcache : cacheLookup st.cache accountName with
      | none =>
        simp only [hcache] at h
        exact assumeRoleRenew_fresh sts now st accountName account hsts creds st' h
      | some cached =>
        simp only [hcache] at h
        by_cases hfresh : now + 60000 < cached.expiresAt
        · simp only [if_pos hfresh] at h
          obtain ⟨hcreds, hst⟩ := Prod.mk.injEq .. ▸ (Except.ok.injEq .. ▸ h)
          exact ⟨cached, hst ▸ hcache, hcreds, hfresh⟩
        · simp only [if_neg hfresh] at h
          exact assumeRoleRenew_fresh sts now st accountName account hsts creds st' h
  · intro cached hcache hfresh hacct
    obtain ⟨account, hacct⟩ := Option.isSome_iff_exists.mp hacct
    unfold getCredentials
    simp [hacct, hcache, hfresh]

/- Concrete fixtures used by the witnesses. -/

def wAccount : AwsAccount :=
  { name := "prod"
    accountId := "123456789012"
    region := "eu-west-1"
    roleArn := "arn:aws:iam::123456789012:role/inventory"
    externalId := none }

def wCreds : Credentials :=
  { accessKeyId := "AKIDCACHED"
    secretAccessKey := "cachedsecret"
    sessionToken := some "cachedtoken"
    expiration := some 3600000 }

def wEntry : CacheEntry := { credentials := wCreds, expiresAt := 3600000 }

def wState : BrokerState :=
  { accounts := [wAccount], cache := [("prod", wEntry)], exchangeCount := 0 }

def wSts : AssumeRoleParams → Option StsCredentials := fun _ =>
  some
    { accessKeyId := "AKIDFRESH"
      secretAccessKey := "freshsecret"
      sessionToken := none
      expiration := some 7200000 }

theorem getCredentials_fresh_and_cached_witness :
    getCredentials wSts 0 wState "prod" = .ok (wCreds, wState) ∧
    cacheLookup wState.cache "prod" = some wEntry ∧ (0 : Int) + 60000 < wEntry.expiresAt := by
  have hsts : ∀ p r e, wSts p = some r → r.expiration = some e → (0 : Int) + 60000 < e := by
    intro p r e hp he
    unfold wSts at hp
    cases hp
    cases he
    decide
  have h := (getCredentials_fresh_and_cached wSts 0 wState "prod" hsts).2
      wEntry (by decide) (by decide) (by decide)
  exact ⟨h, by decide, by decide⟩

theorem getClient_of_isSome {now : Int} {st : BrokerState} {accountName : String}
    (h : (lookupAccount st.accounts accountName).isSome) :
    ∃ cfg, getClient now st accountName = .ok cfg := by
  obtain ⟨a, ha⟩ := Option.isSome_iff_exists.mp h
  refine ⟨{ region := a.region, credentials :=
      { roleArn := a.roleArn
        roleSessionName := "backstage-aws-plugin-" ++ toString now
        durationSeconds := 3600
        externalId := presentString a.externalId
        clientRegion := a.region } }, ?_⟩
  simp [getClient, getCredentialsProvider, ha]

theorem flatten_map_map (g : α → β) (l : List (List α)) :
    (l.map (List.map g)).flatten = l.flatten.map g := by
  induction l with
  | nil => rfl
  | cons x xs ih => simp only [List.map_cons, List.flatten_cons, List.map_append, ih]

/-- C2: for any cursor chain of vendor pages ending in an absent cursor, the
do/while listing loops (`DynamoDbProvider.listTables`,
`LambdaProvider.listFunctions`) call the page fetch exactly once per page —
starting from the absent cursor and passing each returned cursor on — and
return the concatenation of the pages' items in vendor order (mapped to the
normalized shape where the loop maps each raw record). -/
theorem paginated_list_collects_all_pages
    (vendor : DdbVendor) (lamFetch : Option String → ListFunctionsResponse)
    (now : Int) (st : BrokerState) (accountName : String)
    (pages : List (List String)) (lpages : List (List FunctionConfiguration))
    (fuel : Nat)
    (hacct : (lookupAccount st.accounts accountName).isSome)
    (hchain : FetchChain
      (fun c =>
        let r := vendor.listTablesPage c
        (r.tableNames, r.lastEvaluatedTableName)) none pages)
    (hlchain : FetchChain
      (fun c =>
        let r := lamFetch c
        (r.functions, r.nextMarker)) none lpages)
    (hfuel : pages.length ≤ fuel) (hlfuel : lpages.length ≤ fuel) :
    listTables vendor now st accountName fuel = .ok (pages.flatten, pages.length) ∧
    listFunctions lamFetch now st accountName fuel =
      .ok (lpages.flatten.map mapFunction, lpages.length) := by
  obtain ⟨cfg, hcfg⟩ := @getClient_of_isSome now st accountName hacct
  constructor
  · unfold listTables
    rw [hcfg]
    exact congrArg Except.ok (paginate_chain hchain fuel hfuel)
  · unfold listFunctions
    rw [hcfg]
    have hmapped := FetchChain.mapItems mapFunction hlchain
    have heq := paginate_chain hmapped fuel (by simpa using hlfuel)
    rw [flatten_map_map, List.length_map] at heq
    exact congrArg Except.ok heq

def wDdbFetch : Option String → ListTablesResponse
  | none => { tableNames := List.replicate 10 "a", lastEvaluatedTableName := some "p2" }
  | some "p2" => { tableNames := List.replicate 10 "b", lastEvaluatedTableName := some "p3" }
  | some "p3" => { tableNames := List.replicate 4 "c", lastEvaluatedTableName := none }
  | some _ => { tableNames := [], lastEvaluatedTableName := none }

def wDdbVendor : DdbVendor :=
  { listTablesPage := wDdbFetch
    describeTable := fun _ => .ok none
    describeTimeToLive := fun _ => .ok { timeToLiveStatus := none, attributeName := none }
    describeContinuousBackups := fun _ =>
      .ok { pointInTimeRecoveryStatus := none, latestRestorableDateTime := none }
    listTagsOfResource := fun _ => .ok [] }

def wFnCfg : FunctionConfiguration :=
  { functionName := some "fn"
    functionArn := some "arn:aws:lambda:eu-west-1:123456789012:function:fn"
    runtime := some "nodejs20.x"
    handler := none
    codeSize := some 1024
    description := none
    timeout := none
    memorySize := none
    lastModified := none
    version := some "1"
    environment := none }

def wLamFetch : Option String → ListFunctionsResponse := fun _ =>
  { functions := [wFnCfg], nextMarker := none }

theorem paginated_list_collects_all_pages_witness :
    listTables wDdbVendor 0 wState "prod" 3 =
      .ok (List.replicate 10 "a" ++ (List.replicate 10 "b" ++ List.replicate 4 "c"), 3) ∧
    (List.replicate 10 "a" ++ (List.replicate 10 "b" ++ List.replicate 4 "c")).length = 24 ∧
    listFunctions wLamFetch 0 wState "prod" 3 = .ok ([mapFunction wFnCfg], 1) := by
  have hch : FetchChain
      (fun c =>
        let r := wDdbVendor.listTablesPage c
        (r.tableNames, r.lastEvaluatedTableName)) none
      [List.replicate 10 "a", List.replicate 10 "b", List.replicate 4 "c"] := by
    have h1 : (fun c =>
        let r := wDdbVendor.listTablesPage c
        (r.tableNames, r.lastEvaluatedTableName)) none =
        (List.replicate 10 "a", some "p2") := rfl
    have h2 : (fun c =>
        let r := wDdbVendor.listTablesPage c
        (r.tableNames, r.lastEvaluatedTableName)) (some "p2") =
        (List.replicate 10 "b", some "p3") := rfl
    have h3 : (fun c =>
        let r := wDdbVendor.listTablesPage c
        (r.tableNames, r.lastEvaluatedTableName)) (some "p3") =
        (List.replicate 4 "c", none) := rfl
    exact .step h1 (.step h2 (.last h3))
  have hlch : FetchChain
      (fun c =>
        let r := wLamFetch c
        (r.functions, r.nextMarker)) none [[wFnCfg]] := .last rfl
  have h := paginated_list_collects_all_pages wDdbVendor wLamFetch 0 wState "prod"
      [List.replicate 10 "a", List.replicate 10 "b", List.replicate 4 "c"] [[wFnCfg]] 3
      (by decide) hch hlch (by decide) (by decide)
  refine ⟨by simpa using h.1, by decide, by simpa using h.2⟩

/-- C4: the detail-enrichment listings (`DynamoDbProvider.listTablesWithDetails`,
`S3Provider.listBucketsWithDetails`) slice the listed names into consecutive
groups of at most five in original order — `ceil(n/5)` groups in total —
process one group per `Promise.all` barrier (the next group starts only
after the previous barrier completes, which in this sequential model is the
fold over the groups), and return the successfully detailed items in the
original listing order. -/
theorem detail_enrichment_batches
    (vendor : DdbVendor) (s3vendor : S3Vendor) (now : Int) (st : BrokerState)
    (accountName : String) (pages : List (List String)) (fuel : Nat)
    (g : String → Option DynamoDbTable) (buckets : List BucketEntry)
    (gb : String → Option S3Bucket)
    (hacct : (lookupAccount st.accounts accountName).isSome)
    (hchain : FetchChain
      (fun c =>
        let r := vendor.listTablesPage c
        (r.tableNames, r.lastEvaluatedTableName)) none pages)
    (hfuel : pages.length ≤ fuel)
    (hget : ∀ n, getTable vendor now st accountName n = .ok (g n))
    (hlist : s3vendor.listBuckets = .ok buckets)
    (hgetb : ∀ n, getBucket s3vendor now st accountName n = .ok (gb n)) :
    ((chunked5 pages.flatten).length = (pages.flatten.length + 4) / 5 ∧
     (∀ b ∈ chunked5 pages.flatten, b.length ≤ 5) ∧
     (chunked5 pages.flatten).flatten = pages.flatten) ∧
    listTablesWithDetails vendor now st accountName fuel =
      .ok (pages.flatten.filterMap g) ∧
    ((chunked5 (buckets.filterMap (fun b => presentString b.name))).flatten =
      buckets.filterMap (fun b => presentString b.name) ∧
     ∀ b ∈ chunked5 (buckets.filterMap (fun b => presentString b.name)), b.length ≤ 5) ∧
    listBucketsWithDetails s3vendor now st accountName =
      .ok ((buckets.filterMap (fun b => presentString b.name)).filterMap gb) := by
  obtain ⟨cfg, hcfg⟩ := @getClient_of_isSome now st accountName hacct
  obtain ⟨hjoin, hlen, hbound⟩ := chunked5_facts pages.flatten
  obtain ⟨hbjoin, _, hbbound⟩ :=
    chunked5_facts (buckets.filterMap (fun b => presentString b.name))
  refine ⟨⟨hlen, hbound, hjoin⟩, ?_, ⟨hbjoin, hbbound⟩, ?_⟩
  · unfold listTablesWithDetails listTables
    rw [hcfg]
    have hpag := paginate_chain hchain fuel hfuel
    simp only [hpag]
    rw [processBatches_ok g _ hget (chunked5 pages.flatten), hjoin]
  · unfold listBucketsWithDetails
    rw [hcfg, hlist]
    simp only
    rw [processBatches_ok gb _ hgetb, hbjoin]

def wTable : TableDescription :=
  { tableName := some "tbl"
    tableArn := some "arn:aws:dynamodb:eu-west-1:123456789012:table/tbl"
    tableStatus := some "ACTIVE"
    creationDateTime := none
    itemCount := some 7
    tableSizeBytes := some 512
    billingMode := none
    provisionedThroughput := none
    keySchema := none
    attributeDefinitions := none
    globalSecondaryIndexes := none
    localSecondaryIndexes := none
    streamSpecification := none
    deletionProtectionEnabled := none
    tableClass := none }

def wMappedTable : DynamoDbTable := mapTable wTable false none false none none

def wDdbVendor12 : DdbVendor :=
  { listTablesPage := fun _ =>
      { tableNames := List.replicate 12 "tbl", lastEvaluatedTableName := none }
    describeTable := fun _ => .ok (some wTable)
    describeTimeToLive := fun _ => .ok { timeToLiveStatus := none, attributeName := none }
    describeContinuousBackups := fun _ =>
      .ok { pointInTimeRecoveryStatus := none, latestRestorableDateTime := none }
    listTagsOfResource := fun _ => .ok [] }

def wS3Vendor : S3Vendor :=
  { listBuckets := .ok (List.replicate 12 { name := some "bkt", creationDate := none })
    getBucketLocation := fun _ => .ok (some "eu-west-1")
    getBucketVersioning := fun _ => .ok { status := none, mfaDelete := none }
    getBucketEncryption := fun _ => .ok []
    getBucketLifecycle := fun _ => .ok []
    getPublicAccessBlock := fun _ => .ok none
    getBucketPolicyStatus := fun _ => .ok none
    getBucketTagging := fun _ => .ok [] }

def wBucketFor (n : String) : S3Bucket :=
  { name := n
    creationDate := none
    region := some "eu-west-1"
    versioningEnabled := false
    mfaDeleteEnabled := false
    encryptionEnabled := false
    encryptionType := none
    kmsKeyId := none
    lifecycleRules := []
    publicAccessBlocked := false
    policyIsPublic := false
    tags := none }

theorem detail_enrichment_batches_witness :
    chunked5 (List.replicate 12 "tbl") =
      [List.replicate 5 "tbl", List.replicate 5 "tbl", List.replicate 2 "tbl"] ∧
    (chunked5 (List.replicate 12 "tbl")).length = 3 ∧
    listTablesWithDetails wDdbVendor12 0 wState "prod" 1 =
      .ok (List.replicate 12 wMappedTable) ∧
    listBucketsWithDetails wS3Vendor 0 wState "prod" =
      .ok (List.replicate 12 (wBucketFor "bkt")) := by
  have hch : FetchChain
      (fun c =>
        let r := wDdbVendor12.listTablesPage c
        (r.tableNames, r.lastEvaluatedTableName)) none [List.replicate 12 "tbl"] :=
    .last rfl
  have h := detail_enrichment_batches wDdbVendor12 wS3Vendor 0 wState "prod"
      [List.replicate 12 "tbl"] 1 (fun _ => some wMappedTable)
      (List.replicate 12 { name := some "bkt", creationDate := none })
      (fun n => some (wBucketFor n))
      (by decide) hch (by decide) (fun n => rfl) rfl (fun n => rfl)
  refine ⟨by decide, by decide, ?_, ?_⟩
  · have := h.2.1
    simpa using this
  · have := h.2.2.2
    simpa using this

def wDdbVendorErr : DdbVendor :=
  { listTablesPage := fun _ => { tableNames := [], lastEvaluatedTableName := none }
    describeTable := fun _ => .ok (some wTable)
    describeTimeToLive := fun _ => .error { name := "InternalServerError" }
    describeContinuousBackups := fun _ => .error { name := "InternalServerError" }
    listTagsOfResource := fun _ => .error { name := "ThrottlingException" } }

def wS3VendorErr : S3Vendor :=
  { listBuckets := .ok []
    getBucketLocation := fun _ => .ok (some "eu-west-1")
    getBucketVersioning := fun _ => .ok { status := some "Enabled", mfaDelete := none }
    getBucketEncryption := fun _ => .error { name := "AccessDenied" }
    getBucketLifecycle := fun _ => .error { name := "AccessDenied" }
    getPublicAccessBlock := fun _ => .ok none
    getBucketPolicyStatus := fun _ => .ok none
    getBucketTagging := fun _ => .ok [] }

/-- C3 (violated by the code): an enrichment sub-fetch error that no
per-feature predicate classifies as benign — here `AccessDenied` from the
bucket-encryption and lifecycle fetches, and `InternalServerError` /
`ThrottlingException` from the table TTL/PITR/tags fetches — does not
propagate to the caller: `getBucket` and `getTable` still succeed, silently
leaving the corresponding fields at their defaults.  The source's catch
blocks either test `error.name` against the benign error and then do
nothing in either branch (S3) or catch bare (DynamoDB), so every
enrichment error is swallowed. -/
theorem unclassified_enrichment_error_swallowed :
    getBucket wS3VendorErr 0 wState "prod" "bkt" =
      .ok (some { wBucketFor "bkt" with versioningEnabled := true }) ∧
    ({ wBucketFor "bkt" with versioningEnabled := true } : S3Bucket).encryptionEnabled
      = false ∧
    getTable wDdbVendorErr 0 wState "prod" "tbl" = .ok (some wMappedTable) ∧
    wMappedTable.ttlEnabled = false ∧ wMappedTable.pitrEnabled = false ∧
    wMappedTable.tags = none := by
  refine ⟨rfl, rfl, rfl, rfl, rfl, rfl⟩

def wImgOld : ImageDetail :=
  { imageDigest := some "sha256:old"
    imageTags := some ["v1"]
    imageSizeInBytes := some 10
    imagePushedAt := some 100
    imageManifestMediaType := none
    lastRecordedPullTime := none
    artifactMediaType := none }

def wImgNew : ImageDetail :=
  { imageDigest := some "sha256:new"
    imageTags := some ["v2"]
    imageSizeInBytes := some 20
    imagePushedAt := some 200
    imageManifestMediaType := none
    lastRecordedPullTime := none
    artifactMediaType := none }

def wEcrFetch : Option String → DescribeImagesResponse := fun _ =>
  { imageDetails := [wImgOld, wImgNew], nextToken := none }

/-- C5 is false as stated: `EcrProvider.listImages` does not preserve the
vendor-returned order.  With a single vendor page `[old, new]` (pushed at
100 and 200), the returned list is `[new, old]` — the accumulated images
are re-sorted by push date, newest first. -/
theorem listImages_reorders_counterexample :
    listImages wEcrFetch 0 wState "prod" "repo" none 1 =
      .ok ([mapImage "repo" wImgNew, mapImage "repo" wImgOld], 1) ∧
    [mapImage "repo" wImgNew, mapImage "repo" wImgOld] ≠
      [mapImage "repo" wImgOld, mapImage "repo" wImgNew] := by
  exact ⟨rfl, by decide⟩

theorem listImagesLoop_chain_none (repositoryName : String)
    (fetch : Option String → DescribeImagesResponse)
    {cursor : Option String} {pages : List (List ImageDetail)}
    (h : FetchChain (fun c => ((fetch c).imageDetails, (fetch c).nextToken)) cursor pages) :
    ∀ fuel acc calls, pages.length ≤ fuel →
      listImagesLoop repositoryName fetch none fuel cursor acc calls =
        (acc ++ pages.flatten.map (mapImage repositoryName), calls + pages.length) := by
  induction h with
  | @last cursor items hf =>
    intro fuel acc calls hfuel
    match fuel, hfuel with
    | fuel + 1, _ =>
      have hf1 : (fetch cursor).imageDetails = items := congrArg Prod.fst hf
      have hf2 : (fetch cursor).nextToken = none := congrArg Prod.snd hf
      simp [listImagesLoop, hf1, hf2]
  | @step cursor items c ps hf htail ih =>
    intro fuel acc calls hfuel
    match fuel, hfuel with
    | fuel + 1, hfuel =>
      have hf1 : (fetch cursor).imageDetails = items := congrArg Prod.fst hf
      have hf2 : (fetch cursor).nextToken = some c := congrArg Prod.snd hf
      have hle : ps.length ≤ fuel := by
        simp only [List.length_cons] at hfuel; omega
      simp only [listImagesLoop, hf1, hf2,
        ih fuel (acc ++ items.map (mapImage repositoryName)) (calls + 1) hle,
        List.flatten_cons, List.map_append, List.append_assoc, List.length_cons,
        Prod.mk.injEq]
      refine ⟨trivial, by omega⟩

/-- C5 amended: the pagination loops preserve vendor order across pages —
shown here for `SsmProvider.getParametersByPath` — with the one exception
the counterexample forces: `EcrProvider.listImages` re-sorts the
vendor-ordered accumulation by push date, newest first, before returning
it. -/
theorem paginated_order_preserved_except_listImages
    (ssmFetch : Option String → GetParametersByPathResponse)
    (ecrFetch : Option String → DescribeImagesResponse)
    (now : Int) (st : BrokerState) (accountName repositoryName : String)
    (withDecryption : Bool)
    (spages : List (List SsmRawParameter)) (epages : List (List ImageDetail))
    (fuel : Nat)
    (hacct : (lookupAccount st.accounts accountName).isSome)
    (hschain : FetchChain
      (fun c =>
        let r := ssmFetch c
        (r.parameters, r.nextToken)) none spages)
    (hechain : FetchChain
      (fun c => ((ecrFetch c).imageDetails, (ecrFetch c).nextToken)) none epages)
    (hsfuel : spages.length ≤ fuel) (hefuel : epages.length ≤ fuel) :
    getParametersByPath ssmFetch now st accountName withDecryption fuel =
      .ok (spages.flatten.map (fun p => mapParameter p withDecryption), spages.length) ∧
    listImages ecrFetch now st accountName repositoryName none fuel =
      .ok (sortImagesByPushedAt (epages.flatten.map (mapImage repositoryName)),
        epages.length) := by
  obtain ⟨cfg, hcfg⟩ := @getClient_of_isSome now st accountName hacct
  constructor
  · unfold getParametersByPath
    rw [hcfg]
    have hmapped := FetchChain.mapItems (fun p => mapParameter p withDecryption) hschain
    have heq := paginate_chain hmapped fuel (by simpa using hsfuel)
    rw [flatten_map_map, List.length_map] at heq
    exact congrArg Except.ok heq
  · unfold listImages
    rw [hcfg]
    have heq := listImagesLoop_chain_none repositoryName ecrFetch hechain fuel [] 0 hefuel
    simp only [heq, List.nil_append, Nat.zero_add]

def wSsmRaw : SsmRawParameter :=
  { name := some "/app/cfg"
    type := some "String"
    value := some "hello"
    version := some 1
    lastModifiedDate := none
    arn := none
    dataType := none }

def wSsmFetch : Option String → GetParametersByPathResponse := fun _ =>
  { parameters := [wSsmRaw], nextToken := none }

theorem paginated_order_preserved_except_listImages_witness :
    getParametersByPath wSsmFetch 0 wState "prod" false 1 =
      .ok ([mapParameter wSsmRaw false], 1) ∧
    listImages wEcrFetch 0 wState "prod" "repo" none 1 =
      .ok ([mapImage "repo" wImgNew, mapImage "repo" wImgOld], 1) := by
  have h := paginated_order_preserved_except_listImages wSsmFetch wEcrFetch 0 wState
      "prod" "repo" false [[wSsmRaw]] [[wImgOld, wImgNew]] 1
      (by decide) (.last rfl) (.last rfl) (by decide) (by decide)
  refine ⟨by simpa using h.1, ?_⟩
  rw [h.2]
  rfl

/-- The number of page fetches the `listImages` loop performs under a
truthy `maxResults` of `m`: pages are consumed until the accumulated item
count reaches `m` or the chain ends. -/
def imagePagesTaken (m : Nat) (accLen : Nat) : List (List ImageDetail) → Nat
  | [] => 0
  | p :: ps =>
    if m ≤ accLen + p.length then 1 else 1 + imagePagesTaken m (accLen + p.length) ps

theorem imagePagesTaken_le (m : Nat) :
    ∀ (pages : List (List ImageDetail)) (accLen : Nat),
      imagePagesTaken m accLen pages ≤ pages.length := by
  intro pages
  induction pages with
  | nil => intro accLen; simp [imagePagesTaken]
  | cons p ps ih =>
    intro accLen
    unfold imagePagesTaken
    split
    · simp
    · have := ih (accLen + p.length)
      simp only [List.length_cons]
      omega

theorem imagePagesTaken_min (m : Nat) :
    ∀ (pages : List (List ImageDetail)) (accLen : Nat), accLen < m →
      ∀ j < imagePagesTaken m accLen pages,
        accLen + ((pages.take j).flatten).length < m := by
  intro pages
  induction pages with
  | nil => intro accLen _ j hj; simp [imagePagesTaken] at hj
  | cons p ps ih =>
    intro accLen hacc j hj
    unfold imagePagesTaken at hj
    by_cases hc : m ≤ accLen + p.length
    · rw [if_pos hc] at hj
      have hj0 : j = 0 := Nat.lt_one_iff.mp hj
      subst hj0
      simpa using hacc
    · rw [if_neg hc] at hj
      match j with
      | 0 => simpa using hacc
      | j + 1 =>
        have hj' : j < imagePagesTaken m (accLen + p.length) ps := by omega
        have := ih (accLen + p.length) (by omega) j hj'
        simp only [List.take_succ_cons, List.flatten_cons, List.length_append]
        omega

theorem length_insertByPushedDesc (x : EcrImage) (l : List EcrImage) :
    (insertByPushedDesc x l).length = l.length + 1 := by
  induction l with
  | nil => rfl
  | cons y ys ih =>
    unfold insertByPushedDesc
    split <;> simp [ih]

theorem length_sortImagesByPushedAt (l : List EcrImage) :
    (sortImagesByPushedAt l).length = l.length := by
  induction l with
  | nil => rfl
  | cons x xs ih => simp [sortImagesByPushedAt, length_insertByPushedDesc, ih]

theorem listImagesLoop_chain_some (repositoryName : String)
    (fetch : Option String → DescribeImagesResponse) (m : Nat) (hm : m ≠ 0)
    {cursor : Option String} {pages : List (List ImageDetail)}
    (h : FetchChain (fun c => ((fetch c).imageDetails, (fetch c).nextToken)) cursor pages) :
    ∀ fuel acc calls, pages.length ≤ fuel →
      listImagesLoop repositoryName fetch (some m) fuel cursor acc calls =
        (acc ++ ((pages.take (imagePagesTaken m acc.length pages)).flatten).map
          (mapImage repositoryName),
         calls + imagePagesTaken m acc.length pages) := by
  induction h with
  | @last cursor items hf =>
    intro fuel acc calls hfuel
    match fuel, hfuel with
    | fuel + 1, _ =>
      have hf1 : (fetch cursor).imageDetails = items := congrArg Prod.fst hf
      have hf2 : (fetch cursor).nextToken = none := congrArg Prod.snd hf
      have hk : imagePagesTaken m acc.length [items] = 1 := by
        unfold imagePagesTaken
        split <;> rfl
      simp only [listImagesLoop, hf1, hf2, hk, ne_eq, hm, not_false_iff, true_and,
        List.take_succ_cons, List.take_zero, List.flatten_cons, List.flatten_nil,
        List.append_nil]
      split <;> rfl
  | @step cursor items c ps hf htail ih =>
    intro fuel acc calls hfuel
    match fuel, hfuel with
    | fuel + 1, hfuel =>
      have hf1 : (fetch cursor).imageDetails = items := congrArg Prod.fst hf
      have hf2 : (fetch cursor).nextToken = some c := congrArg Prod.snd hf
      have hle : ps.length ≤ fuel := by
        simp only [List.length_cons] at hfuel; omega
      have hacclen : (acc ++ items.map (mapImage repositoryName)).length =
          acc.length + items.length := by
        simp
      by_cases hc : m ≤ acc.length + items.length
      · have hk : imagePagesTaken m acc.length (items :: ps) = 1 := by
          unfold imagePagesTaken
          rw [if_pos hc]
        simp only [listImagesLoop, hf1, hf2, hk, ne_eq, hm, not_false_iff, true_and,
          hacclen, if_pos hc, List.take_succ_cons, List.take_zero, List.flatten_cons,
          List.flatten_nil, List.append_nil]
      · have hk : imagePagesTaken m acc.length (items :: ps) =
            if m ≤ acc.length + items.length then 1
            else 1 + imagePagesTaken m (acc.length + items.length) ps := rfl
        rw [if_neg hc] at hk
        have htake : List.take (1 + imagePagesTaken m (acc.length + items.length) ps)
            (items :: ps) =
            items :: List.take (imagePagesTaken m (acc.length + items.length) ps) ps := by
          rw [Nat.add_comm, List.take_succ_cons]
        have hrec := ih fuel (acc ++ items.map (mapImage repositoryName)) (calls + 1) hle
        rw [hacclen] at hrec
        simp only [listImagesLoop, hf1, hf2, ne_eq, hm, not_false_iff, true_and,
          hacclen, if_neg hc, hrec, hk, htake, List.flatten_cons,
          List.map_append, List.append_assoc, Prod.mk.injEq]
        omega

/-- C6 is false as stated: with a `maxItems` ceiling the loop does
short-circuit and the result is truncated to `maxItems` items, but those are
not the *first* `maxItems` items the vendor returned.  With one vendor page
`[old, new]` and `maxItems = 1`, the result is `[new]` — the sort by push
date runs before the truncation — whereas the first 1 vendor item is
`[old]`. -/
theorem listImages_maxItems_counterexample :
    listImages wEcrFetch 0 wState "prod" "repo" (some 1) 1 =
      .ok ([mapImage "repo" wImgNew], 1) ∧
    [mapImage "repo" wImgNew] ≠ [mapImage "repo" wImgOld] := by
  exact ⟨rfl, by decide⟩

/-- C6 amended: with a truthy `maxItems = m`, `EcrProvider.listImages`
short-circuits the fetch loop as soon as at least `m` items have been
accumulated — it performs `k = imagePagesTaken m 0 pages` fetches, the least
number of pages reaching `m` items (before every one of those fetches the
accumulated count was still below `m`), never more than the page count —
and returns exactly the first `m` items of the accumulated pages *after*
sorting them by push date (newest first), discarding the remainder. -/
theorem listImages_maxItems_short_circuits
    (fetch : Option String → DescribeImagesResponse) (now : Int) (st : BrokerState)
    (accountName repositoryName : String) (m k : Nat)
    (pages : List (List ImageDetail)) (fuel : Nat)
    (hm : m ≠ 0) (hk : k = imagePagesTaken m 0 pages)
    (hacct : (lookupAccount st.accounts accountName).isSome)
    (hchain : FetchChain
      (fun c => ((fetch c).imageDetails, (fetch c).nextToken)) none pages)
    (hfuel : pages.length ≤ fuel) :
    listImages fetch now st accountName repositoryName (some m) fuel =
      .ok ((sortImagesByPushedAt
        (((pages.take k).flatten).map (mapImage repositoryName))).take m, k) ∧
    k ≤ pages.length ∧
    (∀ j < k, ((pages.take j).flatten).length < m) ∧
    (m ≤ ((pages.take k).flatten).length →
      ((sortImagesByPushedAt
        (((pages.take k).flatten).map (mapImage repositoryName))).take m).length = m) := by
  subst hk
  obtain ⟨cfg, hcfg⟩ := @getClient_of_isSome now st accountName hacct
  refine ⟨?_, ?_, ?_, ?_⟩
  · unfold listImages
    rw [hcfg]
    have heq := listImagesLoop_chain_some repositoryName fetch m hm hchain fuel [] 0 hfuel
    simp only [List.length_nil, Nat.zero_add, List.nil_append] at heq
    simp only [heq]
    have hm' : (m == 0) = false := by
      cases m with
      | zero => exact absurd rfl hm
      | succ n => rfl
    rw [hm']
    rfl
  · exact imagePagesTaken_le m pages 0
  · intro j hj
    have := imagePagesTaken_min m pages 0 (Nat.pos_of_ne_zero hm) j hj
    omega
  · intro hge
    rw [List.length_take, length_sortImagesByPushedAt, List.length_map]
    omega

def wEcrPagedFetch : Option String → DescribeImagesResponse
  | none => { imageDetails := List.replicate 10 wImgOld, nextToken := some "n2" }
  | some "n2" => { imageDetails := List.replicate 10 wImgNew, nextToken := some "n3" }
  | some "n3" => { imageDetails := List.replicate 4 wImgOld, nextToken := none }
  | some _ => { imageDetails := [], nextToken := none }

theorem listImages_maxItems_short_circuits_witness :
    listImages wEcrPagedFetch 0 wState "prod" "repo" (some 15) 3 =
      .ok (List.replicate 10 (mapImage "repo" wImgNew) ++
        List.replicate 5 (mapImage "repo" wImgOld), 2) ∧
    (List.replicate 10 (mapImage "repo" wImgNew) ++
      List.replicate 5 (mapImage "repo" wImgOld)).length = 15 := by
  have hch : FetchChain
      (fun c => ((wEcrPagedFetch c).imageDetails, (wEcrPagedFetch c).nextToken)) none
      [List.replicate 10 wImgOld, List.replicate 10 wImgNew, List.replicate 4 wImgOld] := by
    have h1 : (fun c => ((wEcrPagedFetch c).imageDetails, (wEcrPagedFetch c).nextToken))
        none = (List.replicate 10 wImgOld, some "n2") := rfl
    have h2 : (fun c => ((wEcrPagedFetch c).imageDetails, (wEcrPagedFetch c).nextToken))
        (some "n2") = (List.replicate 10 wImgNew, some "n3") := rfl
    have h3 : (fun c => ((wEcrPagedFetch c).imageDetails, (wEcrPagedFetch c).nextToken))
        (some "n3") = (List.replicate 4 wImgOld, none) := rfl
    exact .step h1 (.step h2 (.last h3))
  have h := listImages_maxItems_short_circuits wEcrPagedFetch 0 wState "prod" "repo"
      15 2
      [List.replicate 10 wImgOld, List.replicate 10 wImgNew, List.replicate 4 wImgOld] 3
      (by decide) (by decide) (by decide) hch (by decide)
  refine ⟨?_, by decide⟩
  rw [h.1]
  rfl

def wFreshCreds : Credentials :=
  { accessKeyId := "AKIDFRESH"
    secretAccessKey := "freshsecret"
    sessionToken := none
    expiration := some 7200000 }

def wProv : TempCredsProvider :=
  { roleArn := "arn:aws:iam::123456789012:role/inventory"
    roleSessionName := "backstage-aws-plugin-0"
    durationSeconds := 3600
    externalId := none
    clientRegion := "eu-west-1" }

/-- C7 is false as stated: the credentials supplier built by
`getCredentialsProvider` does not call `getCredentials` (resolve) and never
consults its cache.  With a fresh lease for `prod` in the cache, resolve
returns the cached credentials without a new exchange, while invoking the
supplier performs its own assume-role exchange and yields the
exchange's (different) credentials. -/
theorem credentials_supplier_bypasses_cache_counterexample :
    getCredentials wSts 0 wState "prod" = .ok (wCreds, wState) ∧
    getCredentialsProvider 0 wState "prod" = .ok wProv ∧
    invokeTempCredsProvider wSts wProv = .ok wFreshCreds ∧
    wFreshCreds ≠ wCreds := by
  refine ⟨rfl, rfl, rfl, by decide⟩

/-- C7 amended: for every registered account, the provider's `getClient`
builds a vendor client bound to the account's region and to the
temporary-credentials supplier from `getCredentialsProvider`.  That supplier
captures only the account's role parameters (role ARN, 1-hour session
duration, the truthy external id, the account region) — no credential
value — its construction is independent of the broker's credential cache,
and each invocation performs its own on-demand role assumption with the
captured parameters, so a long-lived client obtains credentials on demand
rather than a value captured at construction (but it does not route through
`getCredentials` or its cache). -/
theorem client_binds_region_and_on_demand_supplier
    (now : Int) (st : BrokerState) (accountName : String) (account : AwsAccount)
    (hacct : lookupAccount st.accounts accountName = some account) :
    ∃ p, getClient now st accountName = .ok { region := account.region, credentials := p } ∧
      getCredentialsProvider now st accountName = .ok p ∧
      p.roleArn = account.roleArn ∧ p.durationSeconds = 3600 ∧
      p.externalId = presentString account.externalId ∧
      p.clientRegion = account.region ∧
      (∀ cache' n,
        getCredentialsProvider now
          { accounts := st.accounts, cache := cache', exchangeCount := n } accountName =
          .ok p) ∧
      (∀ sts c, sts
          { roleArn := p.roleArn
            roleSessionName := p.roleSessionName
            durationSeconds := p.durationSeconds
            externalId := p.externalId } = some c →
        invokeTempCredsProvider sts p =
          .ok { accessKeyId := c.accessKeyId
                secretAccessKey := c.secretAccessKey
                sessionToken := c.sessionToken
                expiration := c.expiration }) := by
  refine ⟨{ roleArn := account.roleArn
            roleSessionName := "backstage-aws-plugin-" ++ toString now
            durationSeconds := 3600
            externalId := presentString account.externalId
            clientRegion := account.region }, ?_, ?_, rfl, rfl, rfl, rfl, ?_, ?_⟩
  · simp [getClient, getCredentialsProvider, hacct]
  · simp [getCredentialsProvider, hacct]
  · intro cache' n
    simp [getCredentialsProvider, lookupAccount] at hacct ⊢
    simp [hacct]
  · intro sts c hc
    simp [invokeTempCredsProvider, hc]

theorem client_binds_region_and_on_demand_supplier_witness :
    getClient 0 wState "prod" = .ok { region := "eu-west-1", credentials := wProv } ∧
    getCredentialsProvider 0 wState "prod" = .ok wProv := by
  obtain ⟨p, h1, h2, _, _, _, _, _, _⟩ :=
    client_binds_region_and_on_demand_supplier 0 wState "prod" wAccount (by decide)
  have hp : p = wProv := by
    have := h2
    simp [getCredentialsProvider, lookupAccount, wState, wAccount] at this
    cases this
    decide
  subst hp
  exact ⟨h1, h2⟩

/-- C8: every core operation that takes an account name — credential
resolution, supplier construction, client construction, and each provider's
list and get operation — rejects an unregistered account name with the
unknown-account error.  The theorem holds for arbitrary vendor oracles and
security-token oracles, so the result is reached without any vendor
interaction; the error return carries no new broker state, so no state is
modified. -/
theorem unknown_account_rejected_everywhere
    (st : BrokerState) (accountName : String)
    (h : lookupAccount st.accounts accountName = none)
    (sts : AssumeRoleParams → Option StsCredentials) (now : Int)
    (ddbVendor : DdbVendor) (lamFetch : Option String → ListFunctionsResponse)
    (lamGet : String → Except VendorError GetFunctionResponse)
    (s3vendor : S3Vendor) (ecrFetch : Option String → DescribeImagesResponse)
    (ssmGet : String → Bool → Except VendorError (Option SsmRawParameter))
    (ssmFetch : Option String → GetParametersByPathResponse)
    (fuel : Nat) (tableName functionName bucketName repositoryName paramName : String)
    (withDecryption : Bool) (maxResults : Option Nat) :
    getCredentials sts now st accountName = .error (.unknownAccount accountName) ∧
    getCredentialsProvider now st accountName = .error (.unknownAccount accountName) ∧
    getClient now st accountName = .error (.unknownAccount accountName) ∧
    listTables ddbVendor now st accountName fuel = .error (.unknownAccount accountName) ∧
    getTable ddbVendor now st accountName tableName =
      .error (.unknownAccount accountName) ∧
    listTablesWithDetails ddbVendor now st accountName fuel =
      .error (.unknownAccount accountName) ∧
    listFunctions lamFetch now st accountName fuel =
      .error (.unknownAccount accountName) ∧
    getFunction lamGet now st accountName functionName =
      .error (.unknownAccount accountName) ∧
    getBucket s3vendor now st accountName bucketName =
      .error (.unknownAccount accountName) ∧
    listBucketsWithDetails s3vendor now st accountName =
      .error (.unknownAccount accountName) ∧
    listImages ecrFetch now st accountName repositoryName maxResults fuel =
      .error (.unknownAccount accountName) ∧
    getParameter ssmGet now st accountName paramName withDecryption =
      .error (.unknownAccount accountName) ∧
    getParametersByPath ssmFetch now st accountName withDecryption fuel =
      .error (.unknownAccount accountName) := by
  have hclient : getClient now st accountName = .error (.unknownAccount accountName) := by
    simp [getClient, h]
  refine ⟨by simp [getCredentials, h], by simp [getCredentialsProvider, h], hclient,
    ?_, ?_, ?_, ?_, ?_, ?_, ?_, ?_, ?_, ?_⟩
  · simp [listTables, hclient]
  · simp [getTable, hclient]
  · simp [listTablesWithDetails, listTables, hclient]
  · simp [listFunctions, hclient]
  · simp [getFunction, hclient]
  · simp [getBucket, hclient]
  · simp [listBucketsWithDetails, hclient]
  · simp [listImages, hclient]
  · simp [getParameter, hclient]
  · simp [getParametersByPath, hclient]

def wLamGet : String → Except VendorError GetFunctionResponse := fun _ =>
  .ok { configuration := none, tags := none }

def wSsmGet : String → Bool → Except VendorError (Option SsmRawParameter) := fun _ _ =>
  .ok none

theorem unknown_account_rejected_everywhere_witness :
    getCredentials wSts 0 wState "staging" = .error (.unknownAccount "staging") ∧
    getClient 0 wState "staging" = .error (.unknownAccount "staging") ∧
    listTables wDdbVendor 0 wState "staging" 3 = .error (.unknownAccount "staging") ∧
    getBucket wS3Vendor 0 wState "staging" "bkt" = .error (.unknownAccount "staging") ∧
    listImages wEcrFetch 0 wState "staging" "repo" none 1 =
      .error (.unknownAccount "staging") ∧
    getParameter wSsmGet 0 wState "staging" "/app/cfg" false =
      .error (.unknownAccount "staging") := by
  have h := unknown_account_rejected_everywhere wState "staging" (by decide) wSts 0
      wDdbVendor wLamFetch wLamGet wS3Vendor wEcrFetch wSsmGet wSsmFetch 3
      "tbl" "fn" "bkt" "repo" "/app/cfg" false none
  exact ⟨h.1, h.2.2.1, h.2.2.2.1, h.2.2.2.2.2.2.2.2.1, h.2.2.2.2.2.2.2.2.2.2.1,
    h.2.2.2.2.2.2.2.2.2.2.2.1⟩

def wLamGetEmptyTags : String → Except VendorError GetFunctionResponse := fun _ =>
  .ok { configuration := some wFnCfg, tags := some [] }

/-- C9 is false as stated: `LambdaProvider.getFunction` attaches the vendor
tag map verbatim (`tags: response.Tags`), so a vendor response whose `Tags`
is the empty map produces an entity whose `tags` field is a present empty
map rather than being omitted. -/
theorem empty_tags_not_omitted_counterexample :
    getFunction wLamGetEmptyTags 0 wState "prod" "fn" =
      .ok (some { mapFunction wFnCfg with tags := some [] }) ∧
    ({ mapFunction wFnCfg with tags := some [] } : LambdaFunction).tags = some [] ∧
    some ([] : List (String × String)) ≠ none := by
  exact ⟨rfl, rfl, by decide⟩

theorem tagsField_none_iff (l : List (String × String)) :
    (if l.length > 0 then some l else none) = none ↔ l = [] := by
  cases l <;> simp

theorem tagsField_some_ne (l m : List (String × String))
    (h : (if l.length > 0 then some l else none) = some m) : m ≠ [] := by
  cases l with
  | nil => simp at h
  | cons x xs =>
    simp at h
    simp [← h]

def wDdbVendorFalsyTags : DdbVendor :=
  { listTablesPage := fun _ => { tableNames := [], lastEvaluatedTableName := none }
    describeTable := fun _ => .ok (some wTable)
    describeTimeToLive := fun _ => .ok { timeToLiveStatus := none, attributeName := none }
    describeContinuousBackups := fun _ =>
      .ok { pointInTimeRecoveryStatus := none, latestRestorableDateTime := none }
    listTagsOfResource := fun _ => .ok [{ key := some "team", value := some "" }] }

def wS3VendorFalsyTags : S3Vendor :=
  { listBuckets := .ok []
    getBucketLocation := fun _ => .ok (some "eu-west-1")
    getBucketVersioning := fun _ => .ok { status := none, mfaDelete := none }
    getBucketEncryption := fun _ => .ok []
    getBucketLifecycle := fun _ => .ok []
    getPublicAccessBlock := fun _ => .ok none
    getBucketPolicyStatus := fun _ => .ok none
    getBucketTagging := fun _ => .ok [{ key := some "team", value := some "" }] }

/-- C9 amended: only the mappers that build their own tag record and gate on
the *collected* record (`SecretsManagerProvider.mapSecret`,
`EfsProvider.mapFileSystem`) follow the omission rule: their `tags` field is
omitted exactly when the collected tag record is empty, and a present `tags`
field is always non-empty.  `LambdaProvider.getFunction` copies the vendor's
tag map through unchanged, so its `tags` field is empty-but-present whenever
the vendor returns an empty map; and the tag-enrichment getter paths
(`DynamoDbProvider.getTable`, `S3Provider.getBucket`) gate on the *raw*
vendor tag-list length before filtering out falsy pairs, so a non-empty raw
list whose every pair has an empty key or value also yields a present empty
tag map (shown below on a raw list with one empty-valued tag). -/
theorem tags_omitted_when_empty_amended
    (s : SecretListEntry) (fs : FileSystemDescription) (nowE : Int)
    (vendor : String → Except VendorError GetFunctionResponse)
    (cfg : FunctionConfiguration) (t : Option (List (String × String)))
    (now : Int) (st : BrokerState) (accountName functionName : String)
    (hacct : (lookupAccount st.accounts accountName).isSome)
    (hresp : vendor functionName = .ok { configuration := some cfg, tags := t }) :
    ((mapSecret s).tags = none ↔ collectTags (s.tags.getD []) = []) ∧
    (∀ m, (mapSecret s).tags = some m → m ≠ []) ∧
    ((mapFileSystem nowE fs).tags = none ↔ collectTags (fs.tags.getD []) = []) ∧
    (∀ m, (mapFileSystem nowE fs).tags = some m → m ≠ []) ∧
    getFunction vendor now st accountName functionName =
      .ok (some { mapFunction cfg with tags := t }) ∧
    getTable wDdbVendorFalsyTags 0 wState "prod" "tbl" =
      .ok (some (mapTable wTable false none false none (some []))) ∧
    (mapTable wTable false none false none (some [])).tags = some [] ∧
    getBucket wS3VendorFalsyTags 0 wState "prod" "bkt" =
      .ok (some { wBucketFor "bkt" with tags := some [] }) ∧
    ({ wBucketFor "bkt" with tags := some [] } : S3Bucket).tags = some [] := by
  obtain ⟨cfgc, hcfg⟩ := @getClient_of_isSome now st accountName hacct
  refine ⟨?_, ?_, ?_, ?_, ?_, rfl, rfl, rfl, rfl⟩
  · show (if (collectTags (s.tags.getD [])).length > 0
        then some (collectTags (s.tags.getD [])) else none) = none ↔ _
    exact tagsField_none_iff _
  · intro m hm
    exact tagsField_some_ne _ m hm
  · show (if (collectTags (fs.tags.getD [])).length > 0
        then some (collectTags (fs.tags.getD [])) else none) = none ↔ _
    exact tagsField_none_iff _
  · intro m hm
    exact tagsField_some_ne _ m hm
  · unfold getFunction
    rw [hcfg, hresp]

def wSecretEntry : SecretListEntry :=
  { name := some "db-secret"
    arn := some "arn:aws:secretsmanager:eu-west-1:123456789012:secret:db-secret"
    description := none
    kmsKeyId := none
    rotationEnabled := some true
    lastChangedDate := none
    lastAccessedDate := none
    tags := some [{ key := some "env", value := some "production" }] }

def wFsDesc : FileSystemDescription :=
  { fileSystemId := some "fs-0123"
    fileSystemArn := some "arn:aws:elasticfilesystem:eu-west-1:123456789012:file-system/fs-0123"
    name := none
    creationTime := some 5
    lifeCycleState := some "available"
    numberOfMountTargets := some 1
    sizeInBytes := some 100
    performanceMode := none
    throughputMode := none
    provisionedThroughputInMibps := none
    encrypted := some true
    kmsKeyId := none
    tags := none }

def wLamGetTagged : String → Except VendorError GetFunctionResponse := fun _ =>
  .ok { configuration := some wFnCfg, tags := some [("env", "production")] }

theorem tags_omitted_when_empty_amended_witness :
    getFunction wLamGetTagged 0 wState "prod" "fn" =
      .ok (some { mapFunction wFnCfg with tags := some [("env", "production")] }) ∧
    (mapSecret wSecretEntry).tags = some [("env", "production")] ∧
    (mapFileSystem 0 wFsDesc).tags = none := by
  have h := tags_omitted_when_empty_amended wSecretEntry wFsDesc 0 wLamGetTagged wFnCfg
      (some [("env", "production")]) 0 wState "prod" "fn" (by decide) rfl
  exact ⟨h.2.2.2.2.1, rfl, h.2.2.1.mpr rfl⟩

/-- C10: `mapParameter` replaces the value of every `SecureString` parameter
with the fixed mask `"********"` whenever decryption was not requested, so
the undecrypted output is identical for any two stored secret values — it
does not depend on the secret's content; with `withDecryption = true` the
parameter's raw value is passed through.  `getParameter` and
`getParametersByPath` return exactly these mapped parameters. -/
theorem securestring_masked_without_decryption
    (vendorGet : String → Bool → Except VendorError (Option SsmRawParameter))
    (fetch : Option String → GetParametersByPathResponse)
    (now : Int) (st : BrokerState) (accountName name : String)
    (p : SsmRawParameter) (pages : List (List SsmRawParameter)) (fuel : Nat)
    (hacct : (lookupAccount st.accounts accountName).isSome)
    (hv : vendorGet name false = .ok (some p)) (hp : p.type = some "SecureString")
    (hchain : FetchChain
      (fun c =>
        let r := fetch c
        (r.parameters, r.nextToken)) none pages)
    (hfuel : pages.length ≤ fuel) :
    (∀ r : SsmRawParameter, r.type = some "SecureString" →
      (mapParameter r false).value = "********") ∧
    (∀ r r' : SsmRawParameter, r.type = some "SecureString" →
      r'.type = some "SecureString" →
      (mapParameter r false).value = (mapParameter r' false).value) ∧
    (∀ r : SsmRawParameter, (mapParameter r true).value = r.value.getD "") ∧
    getParameter vendorGet now st accountName name false =
      .ok (some (mapParameter p false)) ∧
    (mapParameter p false).value = "********" ∧
    getParametersByPath fetch now st accountName false fuel =
      .ok (pages.flatten.map (fun r => mapParameter r false), pages.length) := by
  obtain ⟨cfg, hcfg⟩ := @getClient_of_isSome now st accountName hacct
  have hmask : ∀ r : SsmRawParameter, r.type = some "SecureString" →
      (mapParameter r false).value = "********" := by
    intro r hr
    simp [mapParameter, hr]
  refine ⟨hmask, ?_, ?_, ?_, hmask p hp, ?_⟩
  · intro r r' hr hr'
    rw [hmask r hr, hmask r' hr']
  · intro r
    simp [mapParameter]
  · unfold getParameter
    rw [hcfg, hv]
  · unfold getParametersByPath
    rw [hcfg]
    have hmapped := FetchChain.mapItems (fun r => mapParameter r false) hchain
    have heq := paginate_chain hmapped fuel (by simpa using hfuel)
    rw [flatten_map_map, List.length_map] at heq
    exact congrArg Except.ok heq

def wSecureP1 : SsmRawParameter :=
  { name := some "/app/db-pass"
    type := some "SecureString"
    value := some "hunter2"
    version := some 3
    lastModifiedDate := none
    arn := none
    dataType := none }

def wSecureP2 : SsmRawParameter :=
  { name := some "/app/api-key"
    type := some "SecureString"
    value := some "s3cret"
    version := some 1
    lastModifiedDate := none
    arn := none
    dataType := none }

def wSsmSecureGet : String → Bool → Except VendorError (Option SsmRawParameter) :=
  fun _ _ => .ok (some wSecureP1)

def wSsmSecureFetch : Option String → GetParametersByPathResponse := fun _ =>
  { parameters := [wSecureP1, wSecureP2], nextToken := none }

theorem securestring_masked_without_decryption_witness :
    (mapParameter wSecureP1 false).value = "********" ∧
    (mapParameter wSecureP2 false).value = "********" ∧
    (mapParameter wSecureP1 false).value = (mapParameter wSecureP2 false).value ∧
    (mapParameter wSecureP1 true).value = "hunter2" ∧
    getParameter wSsmSecureGet 0 wState "prod" "/app/db-pass" false =
      .ok (some (mapParameter wSecureP1 false)) ∧
    getParametersByPath wSsmSecureFetch 0 wState "prod" false 1 =
      .ok ([mapParameter wSecureP1 false, mapParameter wSecureP2 false], 1) := by
  have h := securestring_masked_without_decryption wSsmSecureGet wSsmSecureFetch 0 wState
      "prod" "/app/db-pass" wSecureP1 [[wSecureP1, wSecureP2]] 1
      (by decide) rfl rfl (.last rfl) (by decide)
  refine ⟨h.1 wSecureP1 rfl, h.1 wSecureP2 rfl, h.2.1 wSecureP1 wSecureP2 rfl rfl,
    ?_, h.2.2.2.1, ?_⟩
  · simpa using h.2.2.1 wSecureP1
  · simpa using h.2.2.2.2.2

end AwsPlugin
